import Mathlib

/-!
A shallow embedding of `MVCObject.js` (john-n-smith/mvcobject-js), an
implementation of the key-value-observer pattern.

The JavaScript heap is modelled explicitly:

* an entity (an `MVCObject` instance) is named by an `EntityId`; its own
  enumerable data fields are a finite list of `Key`s, each holding a
  `Slot`;
* a `Slot` is either a plain value (`Slot.simple`) or the "complex object"
  `{'__my_index', __observer_indexes, __shared_object}` the engine installs
  when a property takes part in a binding (`Slot.bound`);
* a shared object `{__value, __observers}` lives in a heap of `Group`s
  addressed by `GroupId` (JavaScript object identity); `__shared_object`
  is a nullable reference into that heap;
* `<key>_changed` callback hooks are host-defined: the model records which
  entity/key pairs define a hook and logs each invocation instead of
  running host code (callbacks are external collaborators).

Machine-level JavaScript behaviour that the source exercises is kept:
the `in` operator throws a `TypeError` when its right operand is a
primitive, property reads on `null`/`undefined` throw `TypeError`,
property writes on other primitives are silently ignored (the sources are
sloppy-mode scripts), and `for (var i in array)` enumerates indices in
ascending order.  Unbounded recursion (`_updateObserverIndexes`,
`_rebindObservers`) is given explicit fuel; exhausting it yields the
distinguished outcome `stackOverflow`, and every theorem about those
operations supplies enough fuel for the recursion the source performs.
-/

namespace MVC

/-- A JavaScript value as stored in a simple property or in `__value`.
`obj n` is a host object (without an `'__my_index'` property), named by
identity; the remaining constructors are primitives, `null`, `undefined`. -/
inductive JSVal where
  | str : String → JSVal
  | num : Int → JSVal
  | boolean : Bool → JSVal
  | null : JSVal
  | undef : JSVal
  | obj : Nat → JSVal
  deriving DecidableEq, Repr

/-- Can the JavaScript `in` operator be applied to this value?  `x in v`
throws a `TypeError` unless `v` is an object. -/
def JSVal.isObject : JSVal → Bool
  | .obj _ => true
  | _ => false

abbrev EntityId := Nat
abbrev Key := Nat
abbrev GroupId := Nat

/-- A property slot: either a plain stored value, or the complex object
`{'__my_index': myIndex, __observer_indexes: childIdx, __shared_object: group}`
(`group = none` models a `null` `__shared_object`, which `bindTo` installs
transiently at line 95-100 of the source). -/
inductive Slot where
  | simple : JSVal → Slot
  | bound (myIndex : Nat) (childIdx : List Nat) (group : Option GroupId) : Slot
  deriving DecidableEq, Repr

/-- A shared object `{__value, __observers}`.  An observer entry is
`some (e, k)` for `{obj: e, key: k}` and `none` for a `null` tombstone. -/
structure Group where
  value : JSVal
  observers : List (Option (EntityId × Key))
  deriving DecidableEq, Repr

/-- First-match association lookup (later writes are consed on the left,
so the head entry shadows older ones). -/
def lookupA {α β : Type} [DecidableEq α] : List (α × β) → α → Option β
  | [], _ => none
  | (a, b) :: rest, a' => if a = a' then some b else lookupA rest a'

/-- The machine state: slots of every entity's fields, each entity's own
enumerable field list (insertion order, as `for..in` visits it), the heap
of shared objects, a fresh-identity counter for that heap, the
host-defined set of entity/field pairs owning a `<key>_changed` hook, and
the log of hook invocations.  All components are finite association or
element lists (newest write first) so that states are first-order data. -/
structure State where
  slots : List ((EntityId × Key) × Slot)
  fields : List (EntityId × List Key)
  groupHeap : List (GroupId × Group)
  nextGroup : GroupId
  hooked : List (EntityId × Key)
  log : List (EntityId × Key)
  deriving DecidableEq, Repr

/-- The slot of field `k` on entity `e` (absent field: `none`). -/
def State.slot (s : State) (e : EntityId) (k : Key) : Option Slot :=
  lookupA s.slots (e, k)

/-- The shared object at heap address `g`. -/
def State.groups (s : State) (g : GroupId) : Option Group :=
  lookupA s.groupHeap g

/-- Does entity `e` define a `<k>_changed` hook?  (Host-defined, fixed.) -/
def State.hooks (s : State) (e : EntityId) (k : Key) : Bool :=
  (e, k) ∈ s.hooked

/-- The own enumerable fields of entity `e`, in insertion order. -/
def State.fieldsOf (s : State) (e : EntityId) : List Key :=
  (lookupA s.fields e).getD []

/-- The errors the source can surface: the two `throw`n message kinds of
`bindTo`/`set` (`Undefined: property …` / `Cannot set value …`), the
`already bound` and `is not a bound property` messages, a JavaScript
`TypeError` (e.g. `in` applied to a primitive, member access on
`null`/`undefined`), and stack exhaustion of the recursive walks. -/
inductive JSErr where
  | undefinedField : Key → JSErr
  | alreadyBound : Key → JSErr
  | notBound : Key → JSErr
  | typeError : JSErr
  | stackOverflow : JSErr
  deriving DecidableEq, Repr

/-- Outcome of a mutating operation: normal completion, or a thrown error.
A thrown error carries the state at the moment of the throw — JavaScript
exceptions do not roll back heap mutations. -/
inductive Res where
  | ok : State → Res
  | err : JSErr → State → Res
  deriving DecidableEq

/-- The state carried by an outcome (post-state on success, state at the
throw on error). -/
def Res.stateOf : Res → State
  | .ok s => s
  | .err _ s => s

/-- The error carried by an outcome, if any. -/
def Res.errOf : Res → Option JSErr
  | .ok _ => none
  | .err e _ => some e

/-- Sequencing: run `f` on the state if the previous operation completed. -/
def Res.andThen (r : Res) (f : State → Res) : Res :=
  match r with
  | .ok s => f s
  | .err e s => .err e s

def State.setSlot (s : State) (e : EntityId) (k : Key) (sl : Slot) : State :=
  { s with slots := ((e, k), sl) :: s.slots }

def State.setGroup (s : State) (g : GroupId) (G : Group) : State :=
  { s with groupHeap := (g, G) :: s.groupHeap }

def State.pushLog (s : State) (e : EntityId) (k : Key) : State :=
  { s with log := s.log ++ [(e, k)] }

/-- `MVCObject.prototype._isPropertyBound`: is `this[key]` a non-null
object with an `'__my_index'` property?  Exactly the `Slot.bound` slots:
host values (`JSVal`) never carry `'__my_index'`. -/
def isPropertyBound (s : State) (e : EntityId) (k : Key) : Bool :=
  match s.slot e k with
  | some (.bound _ _ _) => true
  | _ => false

/-- `MVCObject.prototype.get`: return `this[key].__shared_object.__value`
for a bound slot, the stored simple value otherwise (and `undefined` for
an absent field).  A `null` or dangling `__shared_object` would make the
member access throw. -/
def get (s : State) (e : EntityId) (k : Key) : JSErr ⊕ JSVal :=
  match s.slot e k with
  | some (.bound _ _ (some g)) =>
    match s.groups g with
    | some G => .inr G.value
    | none => .inl .typeError
  | some (.bound _ _ none) => .inl .typeError
  | some (.simple v) => .inr v
  | none => .inr JSVal.undef

/-- The notification loop of `set` (source lines 205-211): walk
`__observers` in array order, skip `null` tombstones and entries whose
object has no (truthy) `<key>_changed` member, and invoke the rest. -/
def setNotify (s : State) : List (Option (EntityId × Key)) → State
  | [] => s
  | none :: rest => setNotify s rest
  | some (e, k) :: rest =>
    if s.hooks e k then setNotify (s.pushLog e k) rest else setNotify s rest

/-- `MVCObject.prototype.set`.  The property must exist; for a bound slot
the shared `__value` is compared (`===`) with the new value, committed,
and the observers notified; for a simple slot the value is stored and the
entity's own hook fired.  `force` is the optional `force_callback`. -/
def set (s : State) (e : EntityId) (k : Key) (v : JSVal) (force : Bool) : Res :=
  match s.slot e k with
  | none => .err (.undefinedField k) s
  | some (.bound _ _ og) =>
    match og with
    | none => .err .typeError s
    | some g =>
      match s.groups g with
      | none => .err .typeError s
      | some G =>
        if G.value = v ∧ force = false then .ok s
        else
          let s1 := s.setGroup g { G with value := v }
          .ok (setNotify s1 G.observers)
  | some (.simple w) =>
    if w = v then .ok s
    else
      let s1 := s.setSlot e k (.simple v)
      .ok (if s1.hooks e k then s1.pushLog e k else s1)

/-- `MVCObject.prototype.setValues`: apply `set` to each pair in order;
a throw aborts the remaining entries. -/
def setValues (s : State) (e : EntityId) : List (Key × JSVal) → Res
  | [] => .ok s
  | (k, v) :: rest =>
    match set s e k v false with
    | .ok s' => setValues s' e rest
    | .err er s' => .err er s'

/-- The promotion step of `bindTo` (source lines 50-63): a target property
that is not yet complex is replaced by a fresh complex object whose shared
object holds the old value and the target itself as observer 0. -/
def promote (s : State) (t : EntityId) (tk : Key) : State :=
  match s.slot t tk with
  | some (.simple v) =>
    let g := s.nextGroup
    let s1 := { s with nextGroup := g + 1 }
    let s2 := s1.setGroup g ⟨v, [some (t, tk)]⟩
    s2.setSlot t tk (.bound 0 [] (some g))
  | _ => s

mutual

/-- `MVCObject.prototype._updateObserverIndexes` and its `for..in` loop
(source lines 137-154), shifting `'__my_index'` and every
`__observer_indexes` entry of the subtree by `off`.  The loop re-reads
`this[key]` on every iteration (the list is mutated in place); the bound
`n` is the index set captured at loop entry.  A referenced observer entry
that is out of range is `undefined`, passes the `!== null` test and makes
the recursive call throw a `TypeError`; an `__observer_indexes` access on
a non-complex slot walks zero indices (`for..in` over `undefined`) unless
the slot value is `null`/`undefined`, whose member access throws.  Fuel
decreases on every call and loop step. -/
def updateObserverIndexes (fuel : Nat) (s : State) (e : EntityId) (k : Key) (off : Nat) :
    Res :=
  match fuel with
  | 0 => .err .stackOverflow s
  | fuel + 1 =>
    match s.slot e k with
    | some (.bound my ch og) =>
      updLoop fuel (s.setSlot e k (.bound (my + off) ch og)) e k off 0 ch.length
    | some (.simple .null) => .err .typeError s
    | some (.simple .undef) => .err .typeError s
    | some (.simple _) => .ok s
    | none => .err .typeError s
termination_by structural fuel

def updLoop (fuel : Nat) (s : State) (e : EntityId) (k : Key) (off : Nat) (i n : Nat) :
    Res :=
  match fuel with
  | 0 => .err .stackOverflow s
  | fuel + 1 =>
    if i < n then
      match s.slot e k with
      | some (.bound my ch og) =>
        match ch.get? i, og with
        | some idx, some g =>
          match s.groups g with
          | some G =>
            match G.observers.get? idx with
            | some (some (e', k')) =>
              match updateObserverIndexes fuel s e' k' off with
              | .err er s' => .err er s'
              | .ok s1 =>
                match s1.slot e k with
                | some (.bound my1 ch1 og1) =>
                  updLoop fuel
                    (s1.setSlot e k (.bound my1 (ch1.set i ((ch1.get? i).getD 0 + off)) og1))
                    e k off (i + 1) n
                | _ => .err .typeError s1
            | some none =>
              updLoop fuel (s.setSlot e k (.bound my (ch.set i (idx + off)) og))
                e k off (i + 1) n
            | none => .err .typeError s
          | none => .err .typeError s
        | _, _ => .err .typeError s
      | _ => .err .typeError s
    else .ok s
termination_by structural fuel

end

/-- One iteration of the merge loop of `bindTo` (source lines 113-126):
skip indices below the insertion point and tombstones, repoint the
entry's slot at the common shared object, then fire the entry's
`<key>_changed` hook unless the shared value equals the remembered
pre-bind value, or this is the first attached entry and `no_notify` was
passed.  All reads go through the current state, as the source re-reads
the full member chain in the loop body. -/
def repointStep (s : State) (t : EntityId) (tk : Key) (base : Nat) (obsVal : JSVal)
    (noNotify : Bool) (i : Nat) : Res :=
  if i < base then .ok s else
  match s.slot t tk with
  | some (.bound _ _ (some g)) =>
    match s.groups g with
    | some G =>
      match G.observers.get? i with
      | some none => .ok s
      | some (some (e, k)) =>
        match s.slot e k with
        | some (.bound my ch _) =>
          let s1 := s.setSlot e k (.bound my ch (some g))
          if G.value = obsVal ∨ (i = base ∧ noNotify) then .ok s1
          else if s1.hooks e k then .ok (s1.pushLog e k) else .ok s1
        | some (.simple .null) => .err .typeError s
        | some (.simple .undef) => .err .typeError s
        | some (.simple _) =>
          if G.value = obsVal ∨ (i = base ∧ noNotify) then .ok s
          else if s.hooks e k then .ok (s.pushLog e k) else .ok s
        | none => .err .typeError s
      | none => .ok s
    | none => .err .typeError s
  | _ => .err .typeError s

/-- Driver for the merge loop: run `repointStep` at `i, i+1, …` for
`remaining` iterations (the index set `for..in` captured at loop entry). -/
def repointLoop (s : State) (t : EntityId) (tk : Key) (base : Nat) (obsVal : JSVal)
    (noNotify : Bool) : Nat → Nat → Res
  | _, 0 => .ok s
  | i, r + 1 =>
    match repointStep s t tk base obsVal noNotify i with
    | .ok s' => repointLoop s' t tk base obsVal noNotify (i + 1) r
    | .err er s' => .err er s'

/-- The tail of `bindTo`'s simple-observer branch (source lines 102-126,
after the observer's slot has been made complex): push the observer entry
`{obj: o, key: k}` onto the target's observer array, then run the merge
loop over the extended array. -/
def attachPush (s3f : State) (o : EntityId) (k : Key) (t : EntityId) (tk : Key)
    (base : Nat) (obsVal : JSVal) (nn : Bool) : Res :=
  match s3f.slot t tk with
  | some (.bound _ _ (some g2)) =>
    match s3f.groups g2 with
    | some G2 =>
      let s4 := s3f.setGroup g2 { G2 with observers := G2.observers ++ [some (o, k)] }
      repointLoop s4 t tk base obsVal nn 0 (G2.observers ++ [some (o, k)]).length
    | none => .err .typeError s3f
  | _ => .err .typeError s3f

/-- `MVCObject.prototype.bindTo` (source lines 37-127).  In order: the
target must own the property; a simple target property is promoted; the
insertion point `base` is the current observer count; `base` is appended
to the target's `__observer_indexes`; an already-complex observer must
have `'__my_index' === 0` (else the `already bound` throw — note the two
preceding mutations have already happened), has its subtree's indexes
shifted by `base` and its observer array concatenated onto the target's;
a simple observer becomes a complex slot with a `null` shared object and
is pushed as a new observer entry (creating the observer's field if it
was absent); finally the merge loop repoints and notifies the attached
entries. -/
def bindTo (fuel : Nat) (s : State) (o : EntityId) (k : Key) (t : EntityId) (tk : Key)
    (noNotify : Bool) : Res :=
  if (s.slot t tk).isNone then .err (.undefinedField tk) s else
  let s1 := if isPropertyBound s t tk then s else promote s t tk
  match s1.slot t tk with
  | some (.bound tmy tch (some g)) =>
    match s1.groups g with
    | none => .err .typeError s1
    | some G =>
      let base := G.observers.length
      let s2 := s1.setSlot t tk (.bound tmy (tch ++ [base]) (some g))
      match s2.slot o k with
      | some (.bound omy _ _) =>
        if omy ≠ 0 then .err (.alreadyBound k) s2 else
        match updateObserverIndexes fuel s2 o k base with
        | .err er s' => .err er s'
        | .ok s3 =>
          match s3.slot t tk with
          | some (.bound _ _ (some g')) =>
            match s3.groups g' with
            | some G' =>
              match s3.slot o k with
              | some (.bound _ _ (some og)) =>
                match s3.groups og with
                | some OG =>
                  let s4 := s3.setGroup g' { G' with observers := G'.observers ++ OG.observers }
                  match s4.slot o k with
                  | some (.bound _ _ (some og2)) =>
                    match s4.groups og2 with
                    | some OG2 =>
                      repointLoop s4 t tk base OG2.value noNotify 0
                        (G'.observers ++ OG.observers).length
                    | none => .err .typeError s4
                  | _ => .err .typeError s4
                | none => .err .typeError s3
              | _ => .err .typeError s3
            | none => .err .typeError s3
          | _ => .err .typeError s3
      | _ =>
        let obsVal := match s2.slot o k with
          | some (.simple v) => v
          | _ => JSVal.undef
        let s3 := s2.setSlot o k (.bound base [] none)
        let s3f := if k ∈ s3.fieldsOf o then s3
          else { s3 with fields := (o, s3.fieldsOf o ++ [k]) :: s3.fields }
        attachPush s3f o k t tk base obsVal noNotify
  | some (.bound _ _ none) => .err .typeError s1
  | _ => .err .typeError s1

mutual

/-- `MVCObject.prototype._rebindObservers` and its `for..in` loop (source
lines 251-285), detaching the slot's subtree into the group `gNew`.  For
each `__observer_indexes` position in order: a still-live old entry is
tombstoned out of the old array (`splice(idx, 1, null)`), its own subtree
is rebound first, its `__shared_object` repointed, the parent's recorded
index and the child's `'__my_index'` set to the pre-push length of the
new array, and the entry pushed; an old entry that is already a tombstone
pushes a bare `null` and leaves the parent's recorded index alone.  After
either push the parent's `'__my_index'` is set to the new array's
length.  An out-of-range recorded index passes the `!== null` test,
`splice` then appends `null` past the end and hands back `undefined`,
whose member access throws. -/
def rebindObservers (fuel : Nat) (s : State) (gNew : GroupId) (e : EntityId) (k : Key) :
    Res :=
  match fuel with
  | 0 => .err .stackOverflow s
  | fuel + 1 =>
    match s.slot e k with
    | some (.bound _ ch _) => rebLoop fuel s gNew e k 0 ch.length
    | some (.simple .null) => .err .typeError s
    | some (.simple .undef) => .err .typeError s
    | some (.simple _) => .ok s
    | none => .err .typeError s
termination_by structural fuel

def rebLoop (fuel : Nat) (s : State) (gNew : GroupId) (e : EntityId) (k : Key) (i n : Nat) :
    Res :=
  match fuel with
  | 0 => .err .stackOverflow s
  | fuel + 1 =>
    if i < n then
      match s.slot e k with
      | some (.bound _ ch og) =>
        match ch.get? i, og with
        | some idx, some gOld =>
          match s.groups gOld with
          | some Gold =>
            match Gold.observers.get? idx with
            | some (some (e', k')) =>
              let s1 := s.setGroup gOld { Gold with observers := Gold.observers.set idx none }
              match rebindObservers fuel s1 gNew e' k' with
              | .err er s' => .err er s'
              | .ok s2 =>
                match s2.slot e' k' with
                | some (.bound my' ch' _) =>
                  let s3 := s2.setSlot e' k' (.bound my' ch' (some gNew))
                  match s3.groups gNew with
                  | some Gn =>
                    let L := Gn.observers.length
                    match s3.slot e k with
                    | some (.bound my3 ch3 og3) =>
                      let s4 := s3.setSlot e k (.bound my3 (ch3.set i L) og3)
                      match s4.slot e' k' with
                      | some (.bound _ ch5 og5) =>
                        let s5 := s4.setSlot e' k' (.bound L ch5 og5)
                        match s5.groups gNew with
                        | some Gn2 =>
                          let s6 := s5.setGroup gNew
                            { Gn2 with observers := Gn2.observers ++ [some (e', k')] }
                          match s6.slot e k with
                          | some (.bound _ ch7 og7) =>
                            rebLoop fuel
                              (s6.setSlot e k
                                (.bound (Gn2.observers.length + 1) ch7 og7))
                              gNew e k (i + 1) n
                          | _ => .err .typeError s6
                        | none => .err .typeError s5
                      | _ => .err .typeError s4
                    | _ => .err .typeError s3
                  | none => .err .typeError s3
                | _ => .err .typeError s2
            | some none =>
              match s.groups gNew with
              | some Gn =>
                let s1 := s.setGroup gNew { Gn with observers := Gn.observers ++ [none] }
                match s1.slot e k with
                | some (.bound _ ch1 og1) =>
                  rebLoop fuel
                    (s1.setSlot e k (.bound (Gn.observers.length + 1) ch1 og1))
                    gNew e k (i + 1) n
                | _ => .err .typeError s1
              | none => .err .typeError s
            | none =>
              .err .typeError
                (s.setGroup gOld { Gold with observers := Gold.observers ++ [none] })
          | none => .err .typeError s
        | _, _ => .err .typeError s
      | _ => .err .typeError s
    else .ok s
termination_by structural fuel

end

/-- `MVCObject.prototype.unbind` (source lines 294-321).  The slot must be
a complex object with `'__my_index' !== 0` (the `in` test itself throws a
`TypeError` on a primitive slot value); the slot's own observer entry is
tombstoned; a slot without recorded observers collapses back to a simple
value holding the shared `__value`; otherwise a fresh shared object seeded
with the slot as observer 0 and the old `__value` is created, the subtree
rebound to it, and the slot re-rooted with `'__my_index' = 0`. -/
def unbind (fuel : Nat) (s : State) (e : EntityId) (k : Key) : Res :=
  match s.slot e k with
  | none => .err .typeError s
  | some (.simple v) =>
    if v.isObject then .err (.notBound k) s else .err .typeError s
  | some (.bound my ch og) =>
    if my = 0 then .err (.notBound k) s
    else
      match og with
      | none => .err .typeError s
      | some g =>
        match s.groups g with
        | none => .err .typeError s
        | some G =>
          let s1 := s.setGroup g { G with observers := G.observers.set my none }
          if ch.length = 0 then
            .ok (s1.setSlot e k (.simple G.value))
          else
            let gn := s1.nextGroup
            let s2 := { s1 with nextGroup := gn + 1 }
            let s3 := s2.setGroup gn ⟨G.value, [some (e, k)]⟩
            match rebindObservers fuel s3 gn e k with
            | .err er s' => .err er s'
            | .ok s4 =>
              match s4.slot e k with
              | some (.bound _ ch4 _) => .ok (s4.setSlot e k (.bound 0 ch4 (some gn)))
              | _ => .err .typeError s4

/-- The `for..in` walk of `unbindAll` over the entity's own enumerable
fields (prototype methods and `<key>_changed` hooks are functions, never
complex objects, so `_isPropertyBound` skips them). -/
def unbindAllGo (fuel : Nat) (s : State) (e : EntityId) : List Key → Res
  | [] => .ok s
  | k :: rest =>
    if isPropertyBound s e k then
      match unbind fuel s e k with
      | .ok s' => unbindAllGo fuel s' e rest
      | .err er s' => .err er s'
    else unbindAllGo fuel s e rest

/-- `MVCObject.prototype.unbindAll` (source lines 328-336): call `unbind`
on every enumerable property that `_isPropertyBound` accepts. -/
def unbindAll (fuel : Nat) (s : State) (e : EntityId) : Res :=
  unbindAllGo fuel s e (s.fieldsOf e)

/-! ### Invariant I1 as a decidable check, and concrete scenarios -/

/-- Invariant I1 at one shared group, as the specification states it:
every non-tombstone `observers[i]` names a slot that is `Bound`, whose
`'__my_index'` equals `i` and whose `__shared_object` is this very group.
Computable so that it can be evaluated on concrete states. -/
def checkI1 (s : State) (g : GroupId) : Bool :=
  match s.groups g with
  | none => true
  | some G =>
    (List.range G.observers.length).all fun i =>
      match G.observers.get? i with
      | some (some (e, k)) =>
        match s.slot e k with
        | some (.bound my _ (some g')) => my = i ∧ g' = g
        | _ => false
      | _ => true

/-- Scenario base state: entities `0`-`5`, each owning the single field
`0` holding the simple value `num e`; no `<key>_changed` hooks. -/
def sBase : State :=
  { slots := [((0, 0), .simple (.num 0)), ((1, 0), .simple (.num 1)),
              ((2, 0), .simple (.num 2)), ((3, 0), .simple (.num 3)),
              ((4, 0), .simple (.num 4)), ((5, 0), .simple (.num 5))]
    fields := [(0, [0]), (1, [0]), (2, [0]), (3, [0]), (4, [0]), (5, [0])]
    groupHeap := []
    nextGroup := 0
    hooked := []
    log := [] }

/-- `B.bindTo('foo', A)` then `C.bindTo('foo', B)` on fresh entities
(`A = 0`, `B = 1`, `C = 2`, field `foo = 0`): a three-member chain in one
shared group `[A, B, C]` with `A.child = [1]`, `B.child = [2]`. -/
def runChain : Res :=
  (bindTo 40 sBase 1 0 0 0 false).andThen fun s =>
  bindTo 40 s 2 0 1 0 false

/-- …then `C.unbind('foo')` (tombstoning position 2) and `B.unbind('foo')`:
`B` splits away into the fresh group `1` carrying its recorded observer
index `2`, which now points at a tombstone of the old group but survives
in `B.__observer_indexes`. -/
def runSplit : Res :=
  runChain.andThen fun s =>
  (unbind 40 s 2 0).andThen fun s =>
  unbind 40 s 1 0

/-- …then `D.bindTo('foo', B)` (`D = 3`): the insertion point equals the
stale recorded index `2`, so `B.__observer_indexes = [2, 2]` now holds a
duplicated reference to `D`'s entry. -/
def runDup : Res :=
  runSplit.andThen fun s =>
  bindTo 40 s 3 0 1 0 false

/-- …then `B.bindTo('foo', F)` (`F = 4`, still simple): the duplicated
recorded index makes `_updateObserverIndexes` shift `D`'s
`'__my_index'` twice, breaking invariant I1 in the merged group. -/
def c1run : Res :=
  runDup.andThen fun s =>
  bindTo 40 s 1 0 4 0 false

/-- The state `runDup` computes, written out (every association-list
entry to the left of an equal key is the live one). -/
def sDup : State :=
  { slots := [((3, 0), Slot.bound 2 [] (some 1)),
        ((3, 0), Slot.bound 2 [] none),
        ((1, 0), Slot.bound 0 [2, 2] (some 1)),
        ((1, 0), Slot.bound 0 [2] (some 1)),
        ((1, 0), Slot.bound 2 [2] (some 0)),
        ((2, 0), Slot.simple (JSVal.num 0)),
        ((2, 0), Slot.bound 2 [] (some 0)),
        ((2, 0), Slot.bound 2 [] none),
        ((1, 0), Slot.bound 1 [2] (some 0)),
        ((1, 0), Slot.bound 1 [] (some 0)),
        ((1, 0), Slot.bound 1 [] none),
        ((0, 0), Slot.bound 0 [1] (some 0)),
        ((0, 0), Slot.bound 0 [] (some 0)),
        ((0, 0), Slot.simple (JSVal.num 0)),
        ((1, 0), Slot.simple (JSVal.num 1)),
        ((2, 0), Slot.simple (JSVal.num 2)),
        ((3, 0), Slot.simple (JSVal.num 3)),
        ((4, 0), Slot.simple (JSVal.num 4)),
        ((5, 0), Slot.simple (JSVal.num 5))]
    fields := [(0, [0]), (1, [0]), (2, [0]), (3, [0]), (4, [0]), (5, [0])]
    groupHeap := [(1, { value := JSVal.num 0, observers := [some (1, 0), none, some (3, 0)] }),
        (1, { value := JSVal.num 0, observers := [some (1, 0), none] }),
        (1, { value := JSVal.num 0, observers := [some (1, 0)] }),
        (0, { value := JSVal.num 0, observers := [some (0, 0), none, none] }),
        (0, { value := JSVal.num 0, observers := [some (0, 0), some (1, 0), none] }),
        (0, { value := JSVal.num 0, observers := [some (0, 0), some (1, 0), some (2, 0)] }),
        (0, { value := JSVal.num 0, observers := [some (0, 0), some (1, 0)] }),
        (0, { value := JSVal.num 0, observers := [some (0, 0)] })]
    nextGroup := 2
    hooked := []
    log := [] }

/-- A small state for witnesses: entity `0` is the root of group `0`,
entity `1` is bound at index `1` of the same group (whose observer list
ends in a tombstone), entity `2` has a simple field; every entity/field
pair has a `<key>_changed` hook. -/
def sGrp : State :=
  { slots := [((0, 0), .bound 0 [1] (some 0)), ((1, 0), .bound 1 [] (some 0)),
              ((2, 0), .simple (.num 2))]
    fields := [(0, [0]), (1, [0]), (2, [0])]
    groupHeap := [(0, ⟨.str "v", [some (0, 0), some (1, 0), none]⟩)]
    nextGroup := 1
    hooked := [(0, 0), (1, 0), (2, 0)]
    log := [] }

/-- As `c1run`, but the final bind target is already a bound root of a
two-member group (`G = 5` was bound to `F = 4` first), exercising the
merge of two existing groups. -/
def c2run : Res :=
  runDup.andThen fun s =>
  (bindTo 40 s 5 0 4 0 false).andThen fun s =>
  bindTo 40 s 1 0 4 0 false

/-- State after `B.bindTo('foo', A)` on the base scenario state, used as
the pre-call state of the failing second bind of `c5run`. -/
def c5pre : State := (bindTo 40 sBase 1 0 0 0 false).stateOf

/-- `B.bindTo('foo', C)` when `B.foo` is already outward-bound
(`'__my_index' = 1`). -/
def c5run : Res := bindTo 40 c5pre 1 0 2 0 false

/-! ### Recorded-subtree shapes, for split correctness -/

mutual

/-- The shape of one entry of a bound slot's `__observer_indexes`:
`dead i` records an index that points at a tombstone of the group,
`live i e k ks` records an index pointing at the live observer entry
`(e, k)` whose own slot records the sub-forest `ks`. -/
inductive KTree where
  | dead : Nat → KTree
  | live : Nat → EntityId → Key → KForest → KTree

/-- The recorded sub-forest of a bound slot: its `__observer_indexes`
entries in array order. -/
inductive KForest where
  | nil : KForest
  | cons : KTree → KForest → KForest

end

/-- The recorded index of a tree's root entry. -/
def KTree.idx : KTree → Nat
  | .dead i => i
  | .live i _ _ _ => i

mutual

/-- Size (number of nodes, dead and live). -/
def KTree.size : KTree → Nat
  | .dead _ => 1
  | .live _ _ _ ks => 1 + KForest.size ks

def KForest.size : KForest → Nat
  | .nil => 0
  | .cons kid rest => KTree.size kid + KForest.size rest

end

mutual

/-- The observer entries `_rebindObservers` appends to the new group for
this tree, in push order: the whole sub-forest first, then the root
(tombstones push a bare `null`). -/
def KTree.flat : KTree → List (Option (EntityId × Key))
  | .dead _ => [none]
  | .live _ e k ks => KForest.flat ks ++ [some (e, k)]

def KForest.flat : KForest → List (Option (EntityId × Key))
  | .nil => []
  | .cons kid rest => KTree.flat kid ++ KForest.flat rest

end

mutual

/-- Indices of the live entries of the tree, root first. -/
def KTree.liveIdx : KTree → List Nat
  | .dead _ => []
  | .live i _ _ ks => i :: KForest.liveIdx ks

def KForest.liveIdx : KForest → List Nat
  | .nil => []
  | .cons kid rest => KTree.liveIdx kid ++ KForest.liveIdx rest

end

mutual

/-- The entity/field pairs of the live entries of the tree. -/
def KTree.slotsOf : KTree → List (EntityId × Key)
  | .dead _ => []
  | .live _ e k ks => (e, k) :: KForest.slotsOf ks

def KForest.slotsOf : KForest → List (EntityId × Key)
  | .nil => []
  | .cons kid rest => KTree.slotsOf kid ++ KForest.slotsOf rest

end

mutual

/-- Total number of dead (tombstone-referencing) nodes. -/
def KTree.deadTotal : KTree → Nat
  | .dead _ => 1
  | .live _ _ _ ks => KForest.deadTotal ks

def KForest.deadTotal : KForest → Nat
  | .nil => 0
  | .cons kid rest => KTree.deadTotal kid + KForest.deadTotal rest

end

/-- The top-level recorded indices, in order: what the parent slot's
`__observer_indexes` holds. -/
def KForest.idxList : KForest → List Nat
  | .nil => []
  | .cons kid rest => kid.idx :: KForest.idxList rest

/-- The tree at top-level position `j`. -/
def KForest.get? : KForest → Nat → Option KTree
  | .nil, _ => none
  | .cons kid _, 0 => some kid
  | .cons _ rest, j + 1 => KForest.get? rest j

mutual

/-- Fuel sufficient for `_rebindObservers` to finish this tree. -/
def KTree.fuelFor : KTree → Nat
  | .dead _ => 1
  | .live _ _ _ ks => 2 + KForest.fuelFor ks

def KForest.fuelFor : KForest → Nat
  | .nil => 1
  | .cons kid rest => KTree.fuelFor kid + KForest.fuelFor rest

end

/-- The observer entry of group `g` at position `i` (`none` when the
group does not exist or the position is out of range). -/
def obsAt (s : State) (g : GroupId) (i : Nat) : Option (Option (EntityId × Key)) :=
  match s.groups g with
  | some G => G.observers.get? i
  | none => none

mutual

/-- Well-formedness of a recorded tree against state `s` and group
`gOld`: the recorded index points at the stated kind of entry, and a live
entry's slot is bound into `gOld` with exactly the sub-forest's indices
recorded. -/
def KTree.WF (s : State) (gOld : GroupId) : KTree → Prop
  | .dead i => obsAt s gOld i = some none
  | .live i e k ks =>
    obsAt s gOld i = some (some (e, k)) ∧
    (∃ my, s.slot e k = some (.bound my ks.idxList (some gOld))) ∧
    KForest.WF s gOld ks

def KForest.WF (s : State) (gOld : GroupId) : KForest → Prop
  | .nil => True
  | .cons kid rest => KTree.WF s gOld kid ∧ KForest.WF s gOld rest

end

/-- What one run of the `_rebindObservers` loop over the recorded forest
`ks` — processing positions `i, i+1, …` of the parent slot's
`__observer_indexes` `ch` — does to the state: parent bookkeeping, the
new group's growth by the flattened push list, tombstoning of the live
recorded entries in the old group, and frame conditions on everything
else. -/
structure RebRes (s s' : State) (gOld gNew : GroupId) (e0 : EntityId) (k0 : Key)
    (i : Nat) (ch : List Nat) (ks : KForest) (Gn : Group) : Prop where
  parentSlot : ∃ my' ch', s'.slot e0 k0 = some (.bound my' ch' (some gOld)) ∧
    ch'.length = ch.length ∧
    (∀ j, j < i → ch'.get? j = ch.get? j) ∧
    (∀ j idx, KForest.get? ks j = some (.dead idx) → ch'.get? (i + j) = some idx)
  newGroup : s'.groups gNew = some ⟨Gn.value, Gn.observers ++ KForest.flat ks⟩
  oldLive : ∀ p ∈ KForest.liveIdx ks, obsAt s' gOld p = some none
  oldOther : ∀ p, p ∉ KForest.liveIdx ks → obsAt s' gOld p = obsAt s gOld p
  oldMeta : ∀ G0, s.groups gOld = some G0 → ∃ G0', s'.groups gOld = some G0' ∧
    G0'.value = G0.value ∧ G0'.observers.length = G0.observers.length
  slotFrame : ∀ e k, (e, k) ∉ KForest.slotsOf ks → (e, k) ≠ (e0, k0) →
    s'.slot e k = s.slot e k
  groupFrame : ∀ g', g' ≠ gOld → g' ≠ gNew → s'.groups g' = s.groups g'
  moved : ∀ p ∈ KForest.slotsOf ks, ∃ m c, s'.slot p.1 p.2 = some (.bound m c (some gNew))
  logEq : s'.log = s.log
  nextEq : s'.nextGroup = s.nextGroup
  fieldsEq : s'.fields = s.fields
  hookedEq : s'.hooked = s.hooked

/-- Concrete witness data for `c3_unbind_split`: entity 0's field 0 is bound
at position 1 of group 0, with recorded children — a live child
(entity 1, field 0) at index 2 and a tombstoned child at index 3. -/
def c3wG : Group := ⟨.num 7, [none, some (0, 0), some (1, 0), none]⟩

def c3wKs : KForest := .cons (.live 2 1 0 .nil) (.cons (.dead 3) .nil)

def c3wState : State :=
  ⟨[((0, 0), .bound 1 [2, 3] (some 0)), ((1, 0), .bound 2 [] (some 0))], [],
    [(0, c3wG)], 5, [], []⟩

/-- Concrete witness data for `c9_rebind_keeps_dead_indices`: entity 0's
field 0 records one child index, 2, whose entry in old group 0 is already a
tombstone; group 1 is the rebind target. -/
def c9wGold : Group := ⟨.num 3, [none, some (0, 0), none]⟩

def c9wGn : Group := ⟨.num 3, [some (9, 9)]⟩

def c9wKs : KForest := .cons (.dead 2) .nil

def c9wState : State :=
  ⟨[((0, 0), .bound 1 [2] (some 0))], [], [(1, c9wGn), (0, c9wGold)], 7, [], []⟩

set_option maxHeartbeats 1000000 in
/-- `runDup` completes without error in exactly the state `sDup`. -/
theorem runDup_eq : runDup = .ok sDup := by decide

/-- The last step of `c1run`, started from the computed state. -/
theorem c1run_eq : c1run = bindTo 40 sDup 1 0 4 0 false := by
  unfold c1run
  rw [runDup_eq]
  rfl

/-- The last two steps of `c2run`, started from the computed state. -/
theorem c2run_eq :
    c2run = (bindTo 40 sDup 5 0 4 0 false).andThen fun s =>
      bindTo 40 s 1 0 4 0 false := by
  unfold c2run
  rw [runDup_eq]
  rfl

set_option maxHeartbeats 1000000 in
/-- C1: the reachable public-API sequence `B.bindTo(foo,A)`;
`C.bindTo(foo,B)`; `C.unbind(foo)`; `B.unbind(foo)`; `D.bindTo(foo,B)`;
`B.bindTo(foo,F)` completes its final operation without error, yet the
resulting state violates invariant I1: the merged group `2` holds the
non-tombstone entry `(D, foo)` at position `3` while `D`'s slot records
`'__my_index' = 4` (it was shifted twice through the stale duplicate in
`B.__observer_indexes` that the tombstone branch of `_rebindObservers`
left behind).  This refutes the claim that I1 holds after every public
operation that completes without error. -/
theorem c1_scenario_breaks_I1 :
    c1run.errOf = none ∧
    (c1run.stateOf.groups 2).map Group.observers =
      some [some (4, 0), some (1, 0), none, some (3, 0)] ∧
    c1run.stateOf.slot 3 0 = some (.bound 4 [] (some 2)) ∧
    checkI1 c1run.stateOf 2 = false := by
  rw [c1run_eq]
  decide

/-- C2: merging entity `B`'s outward-unbound root group into `F`'s
already-bound group by `B.bindTo('foo', F)` completes without error, but
in the merged group `2` the previously-reachable observer `(D, foo)`
lands at position `4` with `'__my_index' = 6`: it is double-shifted via
the duplicated entry in `B.__observer_indexes`, so not every
previously-reachable observer ends with a `self_index` equal to its
position in the merged observer array. -/
theorem c2_scenario_breaks_merge :
    c2run.errOf = none ∧
    (c2run.stateOf.groups 2).map Group.observers =
      some [some (4, 0), some (5, 0), some (1, 0), none, some (3, 0)] ∧
    c2run.stateOf.slot 3 0 = some (.bound 6 [] (some 2)) ∧
    checkI1 c2run.stateOf 2 = false := by
  rw [c2run_eq]
  decide

/-- C8: after `B.bindTo('foo', A)` the entity `A` owns exactly one field,
and that field is `Bound` as the root of its group (`'__my_index' = 0`).
`A.unbindAll()` reaches it via `_isPropertyBound`, calls `unbind` on it,
and the defensive check throws `"foo" is not a bound property` instead of
completing; the slot is left bound.  This refutes the claim that
`unbindAll` always completes without error. -/
theorem c8_unbindAll_throws_on_root :
    ((bindTo 40 sBase 1 0 0 0 false).andThen fun s => unbindAll 40 s 0).errOf =
      some (.notBound 0) ∧
    ((bindTo 40 sBase 1 0 0 0 false).andThen fun s => unbindAll 40 s 0).stateOf.slot 0 0 =
      some (.bound 0 [1] (some 0)) := by
  decide

/-- C5 counterexample: the rejected re-bind `B.bindTo('foo', C)` does
throw the `already bound` error, but the target `C`'s slot is *not* in
its pre-call state when the error surfaces: it was `Simple(num 2)` before
the call and has been promoted to a bound root whose
`__observer_indexes` already holds the insertion point `1`.  So the
`AlreadyBoundError` is not raised before any mutation begins. -/
theorem c5_alreadyBound_mutates_target :
    c5run.errOf = some (.alreadyBound 0) ∧
    c5pre.slot 2 0 = some (.simple (.num 2)) ∧
    c5run.stateOf.slot 2 0 = some (.bound 0 [1] (some 1)) ∧
    c5run.stateOf.slot 2 0 ≠ c5pre.slot 2 0 := by
  decide

/-- C7 counterexample: `unbind('foo')` on a slot that is `Simple` with
the primitive value `num 0` throws a JavaScript `TypeError` (the `in`
operator cannot search a primitive), not the defined
`"foo" is not a bound property` error the claim requires. -/
theorem c7_simple_primitive_typeError :
    (unbind 40 sBase 0 0).errOf = some .typeError ∧
    (unbind 40 sBase 0 0).errOf ≠ some (.notBound 0) := by
  decide

/-- C9 counterexample: in `runSplit`, `B.unbind('foo')` rebinds `B`'s
subtree while `B.__observer_indexes = [2]` refers to the tombstoned entry
`2` of the old group.  A tombstone placeholder is indeed appended to the
new group's observer list (`[some (B, foo), none]`), but the
corresponding `__observer_indexes` entry is *not* dropped: `B`'s slot
still records `[2]`. -/
theorem c9_stale_childIdx_retained :
    runSplit.errOf = none ∧
    (runSplit.stateOf.groups 1).map Group.observers = some [some (1, 0), none] ∧
    runSplit.stateOf.slot 1 0 = some (.bound 0 [2] (some 1)) ∧
    runSplit.stateOf.slot 1 0 ≠ some (.bound 0 [] (some 1)) := by
  decide

/-! ### Reading written states -/

@[simp]
theorem slot_setSlot_self (s : State) (e : EntityId) (k : Key) (sl : Slot) :
    (s.setSlot e k sl).slot e k = some sl := by
  simp [State.setSlot, State.slot, lookupA]

theorem slot_setSlot_ne (s : State) {e k e' k' : Nat} (sl : Slot) (h : (e, k) ≠ (e', k')) :
    (s.setSlot e k sl).slot e' k' = s.slot e' k' := by
  simp [State.setSlot, State.slot, lookupA, h]

@[simp]
theorem groups_setSlot (s : State) (e : EntityId) (k : Key) (sl : Slot) (g : GroupId) :
    (s.setSlot e k sl).groups g = s.groups g := rfl

@[simp]
theorem hooks_setSlot (s : State) (e k e' k' : Nat) (sl : Slot) :
    (s.setSlot e k sl).hooks e' k' = s.hooks e' k' := rfl

@[simp]
theorem log_setSlot (s : State) (e : EntityId) (k : Key) (sl : Slot) :
    (s.setSlot e k sl).log = s.log := rfl

@[simp]
theorem fieldsOf_setSlot (s : State) (e : EntityId) (k : Key) (sl : Slot) (e' : EntityId) :
    (s.setSlot e k sl).fieldsOf e' = s.fieldsOf e' := rfl

@[simp]
theorem nextGroup_setSlot (s : State) (e : EntityId) (k : Key) (sl : Slot) :
    (s.setSlot e k sl).nextGroup = s.nextGroup := rfl

@[simp]
theorem groups_setGroup_self (s : State) (g : GroupId) (G : Group) :
    (s.setGroup g G).groups g = some G := by
  simp [State.setGroup, State.groups, lookupA]

theorem groups_setGroup_ne (s : State) {g g' : GroupId} (G : Group) (h : g ≠ g') :
    (s.setGroup g G).groups g' = s.groups g' := by
  simp [State.setGroup, State.groups, lookupA, h]

@[simp]
theorem slot_setGroup (s : State) (g : GroupId) (G : Group) (e : EntityId) (k : Key) :
    (s.setGroup g G).slot e k = s.slot e k := rfl

@[simp]
theorem hooks_setGroup (s : State) (g : GroupId) (G : Group) (e : EntityId) (k : Key) :
    (s.setGroup g G).hooks e k = s.hooks e k := rfl

@[simp]
theorem log_setGroup (s : State) (g : GroupId) (G : Group) :
    (s.setGroup g G).log = s.log := rfl

@[simp]
theorem slot_pushLog (s : State) (e k e' k' : Nat) :
    (s.pushLog e k).slot e' k' = s.slot e' k' := rfl

@[simp]
theorem groups_pushLog (s : State) (e : EntityId) (k : Key) (g : GroupId) :
    (s.pushLog e k).groups g = s.groups g := rfl

@[simp]
theorem hooks_pushLog (s : State) (e k e' k' : Nat) :
    (s.pushLog e k).hooks e' k' = s.hooks e' k' := rfl

/-! ### The notification loop of `set` -/

/-- Closed form of the `set` notification loop: it only extends the log,
by the live entries whose entity defines the hook, in array order. -/
theorem setNotify_eq (s : State) (l : List (Option (EntityId × Key))) :
    setNotify s l =
      { s with log := s.log ++ ((l.filterMap id).filter fun p => s.hooks p.1 p.2) } := by
  induction l generalizing s with
  | nil => simp [setNotify]
  | cons hd tl ih =>
    match hd with
    | none => simpa [setNotify] using ih s
    | some (e, k) =>
      by_cases h : s.hooks e k
      · have h' : (e, k) ∈ s.hooked := by simpa [State.hooks] using h
        simp [setNotify, h, ih, State.pushLog, State.hooks, List.filter_cons, h']
      · have h' : (e, k) ∉ s.hooked := by simpa [State.hooks] using h
        simp [setNotify, h, ih, State.hooks, List.filter_cons, h']

/-- The number of live entries is the total length minus the tombstones. -/
theorem filterMap_id_length (l : List (Option (EntityId × Key))) :
    (l.filterMap id).length = l.length - l.count none := by
  induction l with
  | nil => simp
  | cons hd tl ih =>
    match hd with
    | none => simpa using ih
    | some p =>
      have hle := List.count_le_length (l := tl) (a := (none : Option (EntityId × Key)))
      simp [List.count_cons] at *
      omega

/-- C10: `get(entity, key)` is side-effect free and returns the shared
`__value` for a `Bound` slot and the stored value for a `Simple` slot.
The translation of `get` (source lines 175-179) contains no heap write,
no hook lookup and no hook invocation — it is a pure function of the
state, so every Property Slot, every Shared Group and the callback log
are exactly as before the call; this theorem pins down the returned
value in both cases. -/
theorem c10_get_pure :
    ∀ (s : State) (e : EntityId) (k : Key),
      (∀ v, s.slot e k = some (.simple v) → get s e k = .inr v) ∧
      (∀ my ch g G, s.slot e k = some (.bound my ch (some g)) → s.groups g = some G →
        get s e k = .inr G.value) := by
  intro s e k
  constructor
  · intro v h
    simp [get, h]
  · intro my ch g G h hg
    simp [get, h, hg]

/-- C10 witness: `get` on the concrete state `sGrp`, at a bound slot and
at a simple slot. -/
theorem c10_get_pure_witness :
    get sGrp 0 0 = .inr (.str "v") ∧ get sGrp 2 0 = .inr (.num 2) := by
  constructor
  · exact (c10_get_pure sGrp 0 0).2 0 [1] 0 ⟨.str "v", [some (0, 0), some (1, 0), none]⟩
      (by decide) (by decide)
  · exact (c10_get_pure sGrp 2 0).1 (.num 2) (by decide)

/-- C4: on a bound slot whose group has `N` observer entries of which `k`
are tombstones, where every live entry's entity defines the
`<field>_changed` hook, `set` with a value different from the current
shared value commits the new value and then invokes exactly `N − k`
callbacks — one per live entry, each exactly once, in observer-array
order, skipping tombstones.  The resulting state is the old state with
the group's `__value` replaced and the log extended by precisely the live
entries in array order. -/
theorem c4_set_notifies_live :
    ∀ (s : State) (e : EntityId) (k : Key) (v : JSVal) (my : Nat) (ch : List Nat)
      (g : GroupId) (G : Group),
      s.slot e k = some (.bound my ch (some g)) →
      s.groups g = some G →
      G.value ≠ v →
      (∀ p ∈ G.observers.filterMap id, s.hooks p.1 p.2 = true) →
      set s e k v false =
        .ok { s.setGroup g { G with value := v } with
              log := s.log ++ G.observers.filterMap id } ∧
      (G.observers.filterMap id).length = G.observers.length - G.observers.count none := by
  intro s e k v my ch g G hs hg hne hhook
  refine ⟨?_, filterMap_id_length G.observers⟩
  have hfil : (G.observers.filterMap id).filter
      (fun p => (s.setGroup g { G with value := v }).hooks p.1 p.2) =
      G.observers.filterMap id := by
    apply List.filter_eq_self.mpr
    intro p hp
    simpa using hhook p hp
  simp only [set, hs, hg]
  rw [if_neg (by simp [hne])]
  rw [setNotify_eq, hfil]
  simp [State.setGroup]

/-- C4 witness: on `sGrp` (group of three entries, one tombstone, all
live entities hooked), `set` to a fresh value fires exactly the two live
hooks in array order. -/
theorem c4_set_notifies_live_witness :
    set sGrp 0 0 (.str "w") false =
      .ok { sGrp.setGroup 0 ⟨.str "w", [some (0, 0), some (1, 0), none]⟩ with
            log := [(0, 0), (1, 0)] } ∧
    ([some ((0 : Nat), (0 : Nat)), some (1, 0), none].filterMap id).length = 3 - 1 := by
  have h := c4_set_notifies_live sGrp 0 0 (.str "w") 0 [1] 0
    ⟨.str "v", [some (0, 0), some (1, 0), none]⟩
    (by decide) (by decide) (by decide) (by decide)
  exact h

/-- C5 (amended): `UndefinedFieldError` (absent target property) and
`NotBoundError` (unbind of a bound root) are raised as precondition
checks before any mutation, leaving the state exactly as it was; but
`AlreadyBoundError` is raised only after the target's slot has been
promoted (when it was `Simple`) and after the insertion index has been
appended to the target's `__observer_indexes`, so the target's slot is
already mutated when that error surfaces.  The error states are given
exactly: unchanged for the first two kinds, and the promoted/extended
target slot for `AlreadyBoundError` (with no other slot or group
membership changed beyond those two writes). -/
theorem c5_error_mutation_status :
    (∀ (fuel : Nat) (s : State) (o : EntityId) (k : Key) (t : EntityId) (tk : Key) (nn : Bool),
      s.slot t tk = none →
      bindTo fuel s o k t tk nn = .err (.undefinedField tk) s) ∧
    (∀ (fuel : Nat) (s : State) (e : EntityId) (k : Key) (ch : List Nat) (og : Option GroupId),
      s.slot e k = some (.bound 0 ch og) →
      unbind fuel s e k = .err (.notBound k) s) ∧
    (∀ (fuel : Nat) (s : State) (o : EntityId) (k : Key) (t : EntityId) (tk : Key) (nn : Bool)
      (w : JSVal) (omy : Nat) (och : List Nat) (oog : Option GroupId),
      s.slot t tk = some (.simple w) →
      s.slot o k = some (.bound omy och oog) →
      omy ≠ 0 →
      bindTo fuel s o k t tk nn =
        .err (.alreadyBound k)
          ((promote s t tk).setSlot t tk (.bound 0 [1] (some s.nextGroup)))) ∧
    (∀ (fuel : Nat) (s : State) (o : EntityId) (k : Key) (t : EntityId) (tk : Key) (nn : Bool)
      (tmy : Nat) (tch : List Nat) (g : GroupId) (G : Group)
      (omy : Nat) (och : List Nat) (oog : Option GroupId),
      s.slot t tk = some (.bound tmy tch (some g)) →
      s.groups g = some G →
      s.slot o k = some (.bound omy och oog) →
      omy ≠ 0 →
      bindTo fuel s o k t tk nn =
        .err (.alreadyBound k)
          (s.setSlot t tk (.bound tmy (tch ++ [G.observers.length]) (some g)))) := by
  refine ⟨?_, ?_, ?_, ?_⟩
  · intro fuel s o k t tk nn h
    simp [bindTo, h]
  · intro fuel s e k ch og h
    simp [unbind, h]
  · intro fuel s o k t tk nn w omy och oog ht ho hne
    have hok : (o, k) ≠ (t, tk) := by
      intro hc
      have h1 : o = t := congrArg Prod.fst hc
      have h2 : k = tk := congrArg Prod.snd hc
      subst h1; subst h2
      rw [ht] at ho
      simp at ho
    have hts : (t, tk) ≠ (o, k) := Ne.symm hok
    have hpb : isPropertyBound s t tk = false := by simp [isPropertyBound, ht]
    have hp : (promote s t tk).slot t tk = some (.bound 0 [] (some s.nextGroup)) := by
      unfold promote
      rw [ht]
      exact slot_setSlot_self _ _ _ _
    have hpg : (promote s t tk).groups s.nextGroup =
        some ⟨w, [some (t, tk)]⟩ := by
      unfold promote
      rw [ht]
      exact groups_setGroup_self _ _ _
    have hq : (promote s t tk).slot o k = s.slot o k := by
      unfold promote
      rw [ht]
      rw [slot_setSlot_ne _ _ hts]
      rfl
    have hsl : ((promote s t tk).setSlot t tk
        (.bound 0 [1] (some s.nextGroup))).slot o k = some (.bound omy och oog) := by
      rw [slot_setSlot_ne _ _ hts, hq, ho]
    simp [bindTo, ht, hpb, hp, hpg, hsl, hne]
  · intro fuel s o k t tk nn tmy tch g G omy och oog ht hg ho hne
    have hpb : isPropertyBound s t tk = true := by simp [isPropertyBound, ht]
    by_cases hok : (o, k) = (t, tk)
    · have h1 : o = t := congrArg Prod.fst hok
      have h2 : k = tk := congrArg Prod.snd hok
      subst h1; subst h2
      rw [ht] at ho
      have h3 : omy = tmy := by
        cases ho; rfl
      have hne' : tmy ≠ 0 := h3 ▸ hne
      simp [bindTo, ht, hpb, hg, hne']
    · have hsl2 : (s.setSlot t tk
          (.bound tmy (tch ++ [G.observers.length]) (some g))).slot o k =
          some (.bound omy och oog) := by
        rw [slot_setSlot_ne _ _ (Ne.symm hok), ho]
      simp [bindTo, ht, hpb, hg, hsl2, hne]

/-- C5 witness: the four error kinds at concrete inputs — a bind to an
absent property, an unbind of the root of `sGrp`'s group, the rejected
re-bind of `sGrp`'s outward-bound slot onto a simple target, and onto an
already-bound target. -/
theorem c5_error_mutation_status_witness :
    bindTo 9 sGrp 1 0 7 7 false = .err (.undefinedField 7) sGrp ∧
    unbind 9 sGrp 0 0 = .err (.notBound 0) sGrp ∧
    bindTo 9 sGrp 1 0 2 0 false =
      .err (.alreadyBound 0) ((promote sGrp 2 0).setSlot 2 0 (.bound 0 [1] (some 1))) ∧
    bindTo 9 sGrp 1 0 0 0 false =
      .err (.alreadyBound 0) (sGrp.setSlot 0 0 (.bound 0 [1, 3] (some 0))) := by
  refine ⟨?_, ?_, ?_, ?_⟩
  · exact c5_error_mutation_status.1 9 sGrp 1 0 7 7 false (by decide)
  · exact c5_error_mutation_status.2.1 9 sGrp 0 0 [1] (some 0) (by decide)
  · exact c5_error_mutation_status.2.2.1 9 sGrp 1 0 2 0 false (.num 2) 1 [] (some 0)
      (by decide) (by decide) (by decide)
  · exact c5_error_mutation_status.2.2.2 9 sGrp 1 0 0 0 false 0 [1] 0
      ⟨.str "v", [some (0, 0), some (1, 0), none]⟩ 1 [] (some 0)
      (by decide) (by decide) (by decide) (by decide)

/-- C7 (amended): `unbind` fails before any mutation whenever the slot is
`Simple` or a bound root, but the error kind differs from the claim: a
`Bound` slot with `'__my_index' == 0` raises `NotBoundError`; a `Simple`
slot raises `NotBoundError` only when its stored value is an object, and
a JavaScript `TypeError` (the `in` operator applied to a non-object) when
the value is a primitive, `null` or `undefined`.  In every failure case
the state is returned untouched. -/
theorem c7_unbind_error_trichotomy :
    (∀ (fuel : Nat) (s : State) (e : EntityId) (k : Key) (v : JSVal),
      s.slot e k = some (.simple v) →
      unbind fuel s e k =
        .err (if v.isObject then .notBound k else .typeError) s) ∧
    (∀ (fuel : Nat) (s : State) (e : EntityId) (k : Key) (ch : List Nat) (og : Option GroupId),
      s.slot e k = some (.bound 0 ch og) →
      unbind fuel s e k = .err (.notBound k) s) := by
  constructor
  · intro fuel s e k v h
    by_cases hv : v.isObject
    · simp [unbind, h, hv]
    · simp [unbind, h, hv]
  · intro fuel s e k ch og h
    simp [unbind, h]

/-- C7 witness: a simple primitive-valued slot, a simple object-valued
slot, and a bound root, each rejected with the stated error and an
untouched state. -/
theorem c7_unbind_error_trichotomy_witness :
    unbind 9 sBase 0 0 = .err .typeError sBase ∧
    unbind 9 { sBase with slots := ((0, 0), .simple (.obj 5)) :: sBase.slots } 0 0 =
      .err (.notBound 0) { sBase with slots := ((0, 0), .simple (.obj 5)) :: sBase.slots } ∧
    unbind 9 sGrp 0 0 = .err (.notBound 0) sGrp := by
  refine ⟨?_, ?_, ?_⟩
  · exact c7_unbind_error_trichotomy.1 9 sBase 0 0 (.num 0) (by decide)
  · exact c7_unbind_error_trichotomy.1 9 _ 0 0 (.obj 5) (by decide)
  · exact c7_unbind_error_trichotomy.2 9 sGrp 0 0 [1] (some 0) (by decide)

/-! ### The merge loop of `bindTo` on a freshly attached simple observer -/

/-- Indices below the insertion point are skipped without touching the
state. -/
theorem repointStep_lt (s : State) (t : EntityId) (tk : Key) (base : Nat) (obsVal : JSVal)
    (nn : Bool) (i : Nat) (h : i < base) :
    repointStep s t tk base obsVal nn i = .ok s := by
  simp [repointStep, h]

/-- Running the merge loop over `i..base` (its last index) amounts to the
single step at `base`, all earlier indices being skipped. -/
theorem repointLoop_to_last (t : EntityId) (tk : Key) (base : Nat) (obsVal : JSVal)
    (nn : Bool) :
    ∀ (r i : Nat) (s : State), i + r = base + 1 → i ≤ base →
      repointLoop s t tk base obsVal nn i r = repointStep s t tk base obsVal nn base ∨
      (∃ s', repointStep s t tk base obsVal nn base = .ok s' ∧
        repointLoop s t tk base obsVal nn i r = .ok s') := by
  intro r
  induction r with
  | zero => intro i s h hle; omega
  | succ r ih =>
    intro i s h hle
    by_cases hib : i < base
    · have hstep := repointStep_lt s t tk base obsVal nn i hib
      have := ih (i + 1) s (by omega) (by omega)
      simpa [repointLoop, hstep] using this
    · have hib2 : i = base := by omega
      have hr : r = 0 := by omega
      subst hr
      rw [hib2]
      cases hstep : repointStep s t tk base obsVal nn base with
      | ok s' => exact Or.inr ⟨s', rfl, by simp [repointLoop, hstep]⟩
      | err e s' => exact Or.inl (by simp [repointLoop, hstep])

/-- The merge-loop step at the insertion point, when the attached entry
is a freshly created simple-observer slot: the slot's `__shared_object`
is repointed at the target's group, and at most a log entry is added. -/
theorem repointStep_attach (s : State) (t : EntityId) (tk : Key) (o : EntityId) (k : Key)
    (base : Nat) (g : GroupId) (G2 : Group) (obsVal : JSVal) (nn : Bool)
    (tmy : Nat) (tch : List Nat)
    (ht : s.slot t tk = some (.bound tmy tch (some g)))
    (hg : s.groups g = some G2)
    (hget : G2.observers.get? base = some (some (o, k)))
    (ho : s.slot o k = some (.bound base [] none)) :
    ∃ s', repointStep s t tk base obsVal nn base = .ok s' ∧
      s'.slot o k = some (.bound base [] (some g)) ∧
      (∀ e' k', (e', k') ≠ (o, k) → s'.slot e' k' = s.slot e' k') ∧
      (∀ g', s'.groups g' = s.groups g') := by
  have hskip : ¬ base < base := lt_irrefl base
  unfold repointStep
  rw [if_neg hskip]
  simp only [ht, hg, hget, ho]
  by_cases hcond : (G2.value = obsVal ∨ True ∧ nn = true)
  · rw [if_pos hcond]
    refine ⟨s.setSlot o k (.bound base [] (some g)), rfl, slot_setSlot_self _ _ _ _, ?_, ?_⟩
    · intro e' k' hne
      exact slot_setSlot_ne _ _ (Ne.symm hne)
    · intro g'
      exact groups_setSlot _ _ _ _ _
  · rw [if_neg hcond]
    by_cases hk : (s.setSlot o k (.bound base [] (some g))).hooks o k
    · rw [if_pos hk]
      refine ⟨(s.setSlot o k (.bound base [] (some g))).pushLog o k, rfl, ?_, ?_, ?_⟩
      · rw [slot_pushLog]
        exact slot_setSlot_self _ _ _ _
      · intro e' k' hne
        rw [slot_pushLog]
        exact slot_setSlot_ne _ _ (Ne.symm hne)
      · intro g'
        rw [groups_pushLog]
        exact groups_setSlot _ _ _ _ _
    · rw [if_neg hk]
      refine ⟨s.setSlot o k (.bound base [] (some g)), rfl, slot_setSlot_self _ _ _ _, ?_, ?_⟩
      · intro e' k' hne
        exact slot_setSlot_ne _ _ (Ne.symm hne)
      · intro g'
        exact groups_setSlot _ _ _ _ _

/-- `attachPush` on a well-placed fresh observer slot: the entry is
appended, the merge loop repoints only that slot, and no other group
changes. -/
theorem attachPush_spec (s3f : State) (o : EntityId) (k : Key) (t : EntityId) (tk : Key)
    (base : Nat) (obsVal : JSVal) (nn : Bool) (tmy : Nat) (tch2 : List Nat)
    (g : GroupId) (G : Group)
    (h1 : s3f.slot t tk = some (.bound tmy tch2 (some g)))
    (h2 : s3f.groups g = some G)
    (h3 : s3f.slot o k = some (.bound base [] none))
    (hbase : G.observers.length = base) :
    ∃ s', attachPush s3f o k t tk base obsVal nn = .ok s' ∧
      s'.slot o k = some (.bound base [] (some g)) ∧
      (∀ e' k', (e', k') ≠ (o, k) → s'.slot e' k' = s3f.slot e' k') ∧
      s'.groups g = some ⟨G.value, G.observers ++ [some (o, k)]⟩ ∧
      (∀ g', g' ≠ g → s'.groups g' = s3f.groups g') := by
  have hlen : (G.observers ++ [some (o, k)]).length = base + 1 := by
    simp [hbase]
  have hget : (G.observers ++ [some (o, k)]).get? base = some (some (o, k)) := by
    rw [← hbase]
    exact List.get?_concat_length _ _
  simp only [attachPush, h1, h2, hlen]
  set s4 := s3f.setGroup g { G with observers := G.observers ++ [some (o, k)] } with hs4
  have ht4 : s4.slot t tk = some (.bound tmy tch2 (some g)) := by
    rw [hs4, slot_setGroup, h1]
  have hg4 : s4.groups g = some ⟨G.value, G.observers ++ [some (o, k)]⟩ :=
    groups_setGroup_self _ _ _
  have ho4 : s4.slot o k = some (.bound base [] none) := by
    rw [hs4, slot_setGroup, h3]
  obtain ⟨s5, hstep, p1, p2, p3⟩ :=
    repointStep_attach s4 t tk o k base g ⟨G.value, G.observers ++ [some (o, k)]⟩
      obsVal nn tmy tch2 ht4 hg4 hget ho4
  have hloop := repointLoop_to_last t tk base obsVal nn (base + 1) 0 s4 (by omega) (by omega)
  have hres : repointLoop s4 t tk base obsVal nn 0 (base + 1) = .ok s5 := by
    rcases hloop with h | ⟨s'', hs1, hs2⟩
    · rw [h, hstep]
    · rw [hstep] at hs1
      cases hs1
      exact hs2
  refine ⟨s5, hres, p1, ?_, ?_, ?_⟩
  · intro e' k' hne
    rw [p2 e' k' hne, hs4, slot_setGroup]
  · rw [p3 g, hg4]
  · intro g' hne
    rw [p3 g', hs4, groups_setGroup_ne _ _ (Ne.symm hne)]

/-- `unbind` on a bound slot with no recorded observers: tombstone the
slot's entry and collapse it back to a simple value holding the shared
`__value`. -/
theorem unbind_childless (fuel : Nat) (s : State) (o : EntityId) (k : Key) (my : Nat)
    (g : GroupId) (G : Group)
    (ho : s.slot o k = some (.bound my [] (some g)))
    (hmy : my ≠ 0)
    (hg : s.groups g = some G) :
    unbind fuel s o k =
      .ok ((s.setGroup g { G with observers := G.observers.set my none }).setSlot o k
        (.simple G.value)) := by
  simp [unbind, ho, hmy, hg]

/-- When the target property is a simple value, `bindTo` behaves exactly
as `bindTo` on the state in which the target has already been promoted:
the promotion is the only thing the two runs do differently. -/
theorem bindTo_promote_comm (fuel : Nat) (s : State) (o : EntityId) (k : Key)
    (t : EntityId) (tk : Key) (nn : Bool) (w : JSVal)
    (ht : s.slot t tk = some (.simple w)) :
    bindTo fuel s o k t tk nn = bindTo fuel (promote s t tk) o k t tk nn := by
  have h1 : (promote s t tk).slot t tk = some (.bound 0 [] (some s.nextGroup)) := by
    unfold promote
    rw [ht]
    exact slot_setSlot_self _ _ _ _
  have h2 : isPropertyBound (promote s t tk) t tk = true := by
    simp [isPropertyBound, h1]
  have h0 : isPropertyBound s t tk = false := by
    simp [isPropertyBound, ht]
  simp [bindTo, ht, h0, h1, h2]

/-- `bindTo` of a simple-valued observer property onto an already-bound
target: the observer is appended as a new entry at the insertion point,
its slot becomes a bound slot referencing the target's group, the target
records the new index, and no other group changes. -/
theorem bindTo_attach_simple (fuel : Nat) (s : State) (o : EntityId) (k : Key)
    (t : EntityId) (tk : Key) (nn : Bool) (v0 : JSVal)
    (tmy : Nat) (tch : List Nat) (g : GroupId) (G : Group)
    (ht : s.slot t tk = some (.bound tmy tch (some g)))
    (hg : s.groups g = some G)
    (ho : s.slot o k = some (.simple v0))
    (hne : (t, tk) ≠ (o, k)) :
    ∃ s', bindTo fuel s o k t tk nn = .ok s' ∧
      s'.slot o k = some (.bound G.observers.length [] (some g)) ∧
      s'.slot t tk = some (.bound tmy (tch ++ [G.observers.length]) (some g)) ∧
      s'.groups g = some ⟨G.value, G.observers ++ [some (o, k)]⟩ ∧
      (∀ g', g' ≠ g → s'.groups g' = s.groups g') := by
  have hpb : isPropertyBound s t tk = true := by simp [isPropertyBound, ht]
  have hs2o : (s.setSlot t tk (.bound tmy (tch ++ [G.observers.length]) (some g))).slot o k
      = some (.simple v0) := by
    rw [slot_setSlot_ne _ _ hne, ho]
  simp only [bindTo, ht, hpb, hg, hs2o, Option.isNone_some, Bool.false_eq_true, if_false,
    ite_true, ite_false, fieldsOf_setSlot]
  set base := G.observers.length with hbase
  set s3 := (s.setSlot t tk (.bound tmy (tch ++ [base]) (some g))).setSlot o k
    (.bound base [] none) with hs3
  have h1 : s3.slot t tk = some (.bound tmy (tch ++ [base]) (some g)) := by
    rw [hs3, slot_setSlot_ne _ _ (fun hc => hne (hc ▸ rfl))]
    exact slot_setSlot_self _ _ _ _
  have h2 : s3.groups g = some G := by
    rw [hs3, groups_setSlot, groups_setSlot, hg]
  have h3 : s3.slot o k = some (.bound base [] none) := slot_setSlot_self _ _ _ _
  by_cases hf : k ∈ s.fieldsOf o
  · rw [if_pos hf]
    obtain ⟨s', hrun, q1, q2, q3, q4⟩ :=
      attachPush_spec s3 o k t tk base v0 nn tmy (tch ++ [base]) g G h1 h2 h3 rfl
    refine ⟨s', hrun, q1, ?_, q3, ?_⟩
    · rw [q2 t tk hne, h1]
    · intro g' hgne
      rw [q4 g' hgne]
      show s3.groups g' = s.groups g'
      rw [hs3, groups_setSlot, groups_setSlot]
  · rw [if_neg hf]
    set s3b : State := { s3 with fields := (o, s3.fieldsOf o ++ [k]) :: s3.fields } with hs3b
    have hb1 : s3b.slot t tk = some (.bound tmy (tch ++ [base]) (some g)) := h1
    have hb2 : s3b.groups g = some G := h2
    have hb3 : s3b.slot o k = some (.bound base [] none) := h3
    obtain ⟨s', hrun, q1, q2, q3, q4⟩ :=
      attachPush_spec s3b o k t tk base v0 nn tmy (tch ++ [base]) g G hb1 hb2 hb3 rfl
    refine ⟨s', hrun, q1, ?_, q3, ?_⟩
    · rw [q2 t tk hne, hb1]
    · intro g' hgne
      rw [q4 g' hgne]
      show s3.groups g' = s.groups g'
      rw [hs3, groups_setSlot, groups_setSlot]

/-- C6: for an entity with a `Simple` field and a valid (distinct) target
property, `bindTo` immediately followed by `unbind` on the newly bound
field, with no intervening mutation, restores the field to a `Simple`
value equal to the target's value at bind time.  Stated for both target
shapes: a `Simple` target property (promoted by the bind) and an
already-`Bound` target with an existing, non-empty group. -/
theorem c6_roundtrip :
    (∀ (fuel fuel' : Nat) (s : State) (o : EntityId) (k : Key) (t : EntityId) (tk : Key)
        (nn : Bool) (v0 w : JSVal),
      s.slot o k = some (.simple v0) →
      s.slot t tk = some (.simple w) →
      (t, tk) ≠ (o, k) →
      ∃ s', (bindTo fuel s o k t tk nn).andThen (fun s1 => unbind fuel' s1 o k) = .ok s' ∧
        s'.slot o k = some (.simple w) ∧ get s t tk = .inr w) ∧
    (∀ (fuel fuel' : Nat) (s : State) (o : EntityId) (k : Key) (t : EntityId) (tk : Key)
        (nn : Bool) (v0 : JSVal) (tmy : Nat) (tch : List Nat) (g : GroupId) (G : Group),
      s.slot o k = some (.simple v0) →
      s.slot t tk = some (.bound tmy tch (some g)) →
      s.groups g = some G →
      G.observers ≠ [] →
      (t, tk) ≠ (o, k) →
      ∃ s', (bindTo fuel s o k t tk nn).andThen (fun s1 => unbind fuel' s1 o k) = .ok s' ∧
        s'.slot o k = some (.simple G.value) ∧ get s t tk = .inr G.value) := by
  constructor
  · intro fuel fuel' s o k t tk nn v0 w ho ht hne
    have hcomm := bindTo_promote_comm fuel s o k t tk nn w ht
    have ht' : (promote s t tk).slot t tk = some (.bound 0 [] (some s.nextGroup)) := by
      unfold promote
      rw [ht]
      exact slot_setSlot_self _ _ _ _
    have hg' : (promote s t tk).groups s.nextGroup = some ⟨w, [some (t, tk)]⟩ := by
      unfold promote
      rw [ht]
      exact groups_setGroup_self _ _ _
    have ho' : (promote s t tk).slot o k = some (.simple v0) := by
      unfold promote
      rw [ht, slot_setSlot_ne _ _ hne]
      rw [slot_setGroup]
      exact ho
    obtain ⟨s1, hrun, q1, q2, q3, q4⟩ :=
      bindTo_attach_simple fuel (promote s t tk) o k t tk nn v0 0 [] s.nextGroup
        ⟨w, [some (t, tk)]⟩ ht' hg' ho' hne
    have hu := unbind_childless fuel' s1 o k 1 s.nextGroup
      ⟨w, [some (t, tk)] ++ [some (o, k)]⟩ q1 (by omega) q3
    refine ⟨_, by rw [hcomm, hrun]; exact hu, ?_, ?_⟩
    · exact slot_setSlot_self _ _ _ _
    · simp [get, ht]
  · intro fuel fuel' s o k t tk nn v0 tmy tch g G ho ht hg hobs hne
    have hb0 : G.observers.length ≠ 0 := by
      intro hc
      exact hobs (List.length_eq_zero.mp hc)
    obtain ⟨s1, hrun, q1, q2, q3, q4⟩ :=
      bindTo_attach_simple fuel s o k t tk nn v0 tmy tch g G ht hg ho hne
    have hu := unbind_childless fuel' s1 o k G.observers.length g
      ⟨G.value, G.observers ++ [some (o, k)]⟩ q1 hb0 q3
    refine ⟨_, by rw [hrun]; exact hu, ?_, ?_⟩
    · exact slot_setSlot_self _ _ _ _
    · simp [get, ht, hg]

/-- C6 witness: on the base scenario state, `B.bindTo('foo', A)` then
`B.unbind('foo')` restores `B.foo` to `A`'s value `num 0` (target
initially simple), and on `sGrp`, `C.bindTo('foo', B)` (`B` bound, group
value `str "v"`) then `C.unbind('foo')` restores `C.foo` to `str "v"`. -/
theorem c6_roundtrip_witness :
    (∃ s', (bindTo 9 sBase 1 0 0 0 false).andThen (fun s1 => unbind 9 s1 1 0) = .ok s' ∧
      s'.slot 1 0 = some (.simple (.num 0)) ∧ get sBase 0 0 = .inr (.num 0)) ∧
    (∃ s', (bindTo 9 sGrp 2 0 1 0 false).andThen (fun s1 => unbind 9 s1 2 0) = .ok s' ∧
      s'.slot 2 0 = some (.simple (.str "v")) ∧ get sGrp 1 0 = .inr (.str "v")) := by
  constructor
  · exact c6_roundtrip.1 9 9 sBase 1 0 0 0 false (.num 1) (.num 0)
      (by decide) (by decide) (by decide)
  · exact c6_roundtrip.2 9 9 sGrp 2 0 1 0 false (.num 2) 1 [] 0
      ⟨.str "v", [some (0, 0), some (1, 0), none]⟩
      (by decide) (by decide) (by decide) (by decide) (by decide)

/-! ### Pure facts about recorded-subtree shapes -/

mutual

theorem length_filterMap_flat_tree (kid : KTree) :
    ((KTree.flat kid).filterMap id).length = (KTree.slotsOf kid).length := by
  match kid with
  | .dead i => rfl
  | .live i e k ks =>
    simp [KTree.flat, KTree.slotsOf, List.filterMap_append,
      length_filterMap_flat_forest ks]

theorem length_filterMap_flat_forest (ks : KForest) :
    ((KForest.flat ks).filterMap id).length = (KForest.slotsOf ks).length := by
  match ks with
  | .nil => rfl
  | .cons kid rest =>
    simp [KForest.flat, KForest.slotsOf, List.filterMap_append,
      length_filterMap_flat_tree kid, length_filterMap_flat_forest rest]

end

mutual

theorem count_none_flat_tree (kid : KTree) :
    (KTree.flat kid).count none = KTree.deadTotal kid := by
  match kid with
  | .dead i => rfl
  | .live i e k ks =>
    simp [KTree.flat, KTree.deadTotal, List.count_append,
      count_none_flat_forest ks]

theorem count_none_flat_forest (ks : KForest) :
    (KForest.flat ks).count none = KForest.deadTotal ks := by
  match ks with
  | .nil => rfl
  | .cons kid rest =>
    simp [KForest.flat, KForest.deadTotal, List.count_append,
      count_none_flat_tree kid, count_none_flat_forest rest]

end

/-! ### Transporting well-formedness across benign state changes -/

mutual

theorem WF_mono_tree (s s' : State) (gOld : GroupId) (kid : KTree)
    (hobs : ∀ i, obsAt s' gOld i = obsAt s gOld i ∨ obsAt s' gOld i = some none)
    (hlive : ∀ i ∈ KTree.liveIdx kid, obsAt s' gOld i = obsAt s gOld i)
    (hslots : ∀ p ∈ KTree.slotsOf kid, s'.slot p.1 p.2 = s.slot p.1 p.2)
    (h : KTree.WF s gOld kid) : KTree.WF s' gOld kid := by
  match kid with
  | .dead i =>
    rcases hobs i with h' | h'
    · rw [KTree.WF] at h ⊢
      rw [h']
      exact h
    · rw [KTree.WF]
      exact h'
  | .live i e k ks =>
    rw [KTree.WF] at h ⊢
    obtain ⟨h1, ⟨my, h2⟩, h3⟩ := h
    refine ⟨?_, ⟨my, ?_⟩, ?_⟩
    · rw [hlive i (by simp [KTree.liveIdx]), h1]
    · rw [hslots (e, k) (by simp [KTree.slotsOf]), h2]
    · exact WF_mono_forest s s' gOld ks hobs
        (fun i hi => hlive i (by simp [KTree.liveIdx, hi]))
        (fun p hp => hslots p (by simp [KTree.slotsOf, hp]))
        h3

theorem WF_mono_forest (s s' : State) (gOld : GroupId) (ks : KForest)
    (hobs : ∀ i, obsAt s' gOld i = obsAt s gOld i ∨ obsAt s' gOld i = some none)
    (hlive : ∀ i ∈ KForest.liveIdx ks, obsAt s' gOld i = obsAt s gOld i)
    (hslots : ∀ p ∈ KForest.slotsOf ks, s'.slot p.1 p.2 = s.slot p.1 p.2)
    (h : KForest.WF s gOld ks) : KForest.WF s' gOld ks := by
  match ks with
  | .nil => trivial
  | .cons kid rest =>
    rw [KForest.WF] at h ⊢
    refine ⟨?_, ?_⟩
    · exact WF_mono_tree s s' gOld kid hobs
        (fun i hi => hlive i (by simp [KForest.liveIdx, hi]))
        (fun p hp => hslots p (by simp [KForest.slotsOf, hp]))
        h.1
    · exact WF_mono_forest s s' gOld rest hobs
        (fun i hi => hlive i (by simp [KForest.liveIdx, hi]))
        (fun p hp => hslots p (by simp [KForest.slotsOf, hp]))
        h.2

end

theorem fuelFor_pos_tree (kid : KTree) : 1 ≤ KTree.fuelFor kid := by
  cases kid <;> simp [KTree.fuelFor]
  omega

theorem fuelFor_pos_forest (ks : KForest) : 1 ≤ KForest.fuelFor ks := by
  cases ks with
  | nil => simp [KForest.fuelFor]
  | cons kid rest =>
    have := fuelFor_pos_tree kid
    simp [KForest.fuelFor]
    omega

/-- Correctness of the `_rebindObservers` loop over a well-formed
recorded forest: it terminates normally within the stated fuel and
effects exactly the bookkeeping `RebRes` describes. -/
theorem rebLoop_spec (ks : KForest) :
    ∀ (fuel : Nat) (s : State) (gOld gNew : GroupId) (e0 : EntityId) (k0 : Key)
      (i n my0 : Nat) (ch : List Nat) (Gn : Group),
      KForest.fuelFor ks ≤ fuel →
      s.slot e0 k0 = some (.bound my0 ch (some gOld)) →
      ch.length = n →
      i + (KForest.idxList ks).length = n →
      (∀ j, ch.get? (i + j) = (KForest.idxList ks).get? j) →
      gOld ≠ gNew →
      s.groups gNew = some Gn →
      KForest.WF s gOld ks →
      (KForest.liveIdx ks).Nodup →
      (KForest.slotsOf ks).Nodup →
      (e0, k0) ∉ KForest.slotsOf ks →
      ∃ s', rebLoop fuel s gNew e0 k0 i n = .ok s' ∧
        RebRes s s' gOld gNew e0 k0 i ch ks Gn := by
  match ks with
  | .nil =>
    intro fuel s gOld gNew e0 k0 i n my0 ch Gn hfuel hslot hlen hin hch hne hGn hwf hnd1
      hnd2 hp0
    have hf1 : KForest.fuelFor .nil = 1 := rfl
    obtain ⟨f, rfl⟩ : ∃ m, fuel = m + 1 := ⟨fuel - 1, by omega⟩
    have hin2 : i = n := by simpa [KForest.idxList] using hin
    have hin' : ¬ i < n := by omega
    refine ⟨s, ?_, ?_⟩
    · simp [rebLoop, hin']
    · refine ⟨⟨my0, ch, hslot, rfl, fun j _ => rfl, fun j idx h => ?_⟩, ?_,
        ?_, fun p _ => rfl, fun G0 h0 => ⟨G0, h0, rfl, rfl⟩, fun e k _ _ => rfl,
        fun g' _ _ => rfl, ?_, rfl, rfl, rfl, rfl⟩
      · cases j <;> simp [KForest.get?] at h
      · simpa [KForest.flat] using hGn
      · intro p hp
        simp [KForest.liveIdx] at hp
      · intro p hp
        simp [KForest.slotsOf] at hp
  | .cons (.dead idx) rest =>
    intro fuel s gOld gNew e0 k0 i n my0 ch Gn hfuel hslot hlen hin hch hne hGn hwf hnd1
      hnd2 hp0
    have hfcons : KForest.fuelFor (.cons (.dead idx) rest) = 1 + KForest.fuelFor rest := rfl
    obtain ⟨f, rfl⟩ : ∃ m, fuel = m + 1 := ⟨fuel - 1, by omega⟩
    have hlencons : (KForest.idxList (.cons (.dead idx) rest)).length
        = 1 + (KForest.idxList rest).length := by
      simp [KForest.idxList, KTree.idx]
      omega
    have hlt : i < n := by omega
    have hchi : ch.get? i = some idx := by
      have := hch 0
      simpa [KForest.idxList, KTree.idx] using this
    rw [KForest.WF] at hwf
    obtain ⟨hwfd, hwfrest⟩ := hwf
    rw [KTree.WF] at hwfd
    obtain ⟨Gold, hGold, hgetnone⟩ : ∃ Gold, s.groups gOld = some Gold ∧
        Gold.observers.get? idx = some none := by
      unfold obsAt at hwfd
      cases hg : s.groups gOld with
      | none => rw [hg] at hwfd; exact absurd hwfd (by simp)
      | some G => rw [hg] at hwfd; exact ⟨G, rfl, hwfd⟩
    set Gn2 : Group := ⟨Gn.value, Gn.observers ++ [none]⟩ with hGn2def
    set s1 : State := s.setGroup gNew Gn2 with hs1
    set s2 : State := s1.setSlot e0 k0 (.bound (Gn.observers.length + 1) ch (some gOld))
      with hs2
    have hslot1 : s1.slot e0 k0 = some (.bound my0 ch (some gOld)) := by
      rw [hs1, slot_setGroup]; exact hslot
    have hslot2 : s2.slot e0 k0
        = some (.bound (Gn.observers.length + 1) ch (some gOld)) := by
      rw [hs2]; exact slot_setSlot_self _ _ _ _
    have hgold2 : s2.groups gOld = s.groups gOld := by
      rw [hs2, groups_setSlot, hs1, groups_setGroup_ne _ _ (Ne.symm hne)]
    have hobs2 : ∀ p, obsAt s2 gOld p = obsAt s gOld p := by
      intro p; simp only [obsAt, hgold2]
    have hGn22 : s2.groups gNew = some Gn2 := by
      rw [hs2, groups_setSlot, hs1]; exact groups_setGroup_self _ _ _
    have hslots2 : ∀ p ∈ KForest.slotsOf rest, s2.slot p.1 p.2 = s.slot p.1 p.2 := by
      intro p hp
      have hpc : (p.1, p.2) ≠ (e0, k0) := by
        intro hc
        apply hp0
        simp only [KForest.slotsOf, KTree.slotsOf, List.nil_append]
        rw [← hc]
        simpa using hp
      rw [hs2, slot_setSlot_ne _ _ (Ne.symm hpc), hs1, slot_setGroup]
    have hwfrest2 : KForest.WF s2 gOld rest :=
      WF_mono_forest s s2 gOld rest (fun p => Or.inl (hobs2 p)) (fun p _ => hobs2 p)
        hslots2 hwfrest
    have hnd1r : (KForest.liveIdx rest).Nodup := by
      simpa [KForest.liveIdx, KTree.liveIdx] using hnd1
    have hnd2r : (KForest.slotsOf rest).Nodup := by
      simpa [KForest.slotsOf, KTree.slotsOf] using hnd2
    have hp0r : (e0, k0) ∉ KForest.slotsOf rest := by
      intro hc; apply hp0; simpa [KForest.slotsOf, KTree.slotsOf] using hc
    obtain ⟨s3, hrun3, R⟩ := rebLoop_spec rest f s2 gOld gNew e0 k0 (i + 1) n
      (Gn.observers.length + 1) ch Gn2 (by omega) hslot2 hlen (by omega)
      (by
        intro j
        have := hch (j + 1)
        simpa [KForest.idxList, Nat.add_assoc, Nat.add_comm 1 j] using this)
      hne hGn22 hwfrest2 hnd1r hnd2r hp0r
    refine ⟨s3, ?_, ?_⟩
    · rw [← hrun3]
      have hslot1x : (s.setGroup gNew (⟨Gn.value, Gn.observers ++ [none]⟩ : Group)).slot e0 k0
          = some (.bound my0 ch (some gOld)) := by
        rw [slot_setGroup]; exact hslot
      simp only [rebLoop, hlt, if_pos, hslot, hchi, hGold, hgetnone, hGn, hslot1x]
    · obtain ⟨my', ch', hps, hlen', hpre, hdead⟩ := R.parentSlot
      refine ⟨⟨my', ch', hps, hlen', fun j hj => hpre j (by omega), ?_⟩,
        ?_, ?_, ?_, ?_, ?_, ?_, ?_, ?_, ?_, ?_, ?_⟩
      · intro j idx' hj
        match j, hj with
        | 0, hj =>
          have : idx' = idx := by
            have := hj
            simp [KForest.get?] at this
            omega
          subst this
          have h0 := hpre i (by omega)
          rw [Nat.add_zero, h0, hchi]
        | j' + 1, hj =>
          have hj' : KForest.get? rest j' = some (.dead idx') := by
            simpa [KForest.get?] using hj
          have := hdead j' idx' hj'
          rw [show i + (j' + 1) = i + 1 + j' by omega]
          exact this
      · rw [R.newGroup]
        simp [KForest.flat, KTree.flat]
      · intro p hp
        exact R.oldLive p (by simpa [KForest.liveIdx, KTree.liveIdx] using hp)
      · intro p hp
        rw [R.oldOther p (by simpa [KForest.liveIdx, KTree.liveIdx] using hp), hobs2 p]
      · intro G0 h0
        exact R.oldMeta G0 (by rw [hgold2]; exact h0)
      · intro e k hnotin hne0
        rw [R.slotFrame e k (by simpa [KForest.slotsOf, KTree.slotsOf] using hnotin) hne0,
          hs2, slot_setSlot_ne _ _ (Ne.symm hne0), hs1, slot_setGroup]
      · intro g' h1 h2
        rw [R.groupFrame g' h1 h2, hs2, groups_setSlot, hs1, groups_setGroup_ne _ _
          (Ne.symm h2)]
      · intro p hp
        exact R.moved p (by simpa [KForest.slotsOf, KTree.slotsOf] using hp)
      · rw [R.logEq]
        rfl
      · rw [R.nextEq]
        rfl
      · rw [R.fieldsEq]
        rfl
      · rw [R.hookedEq]
        rfl
  | .cons (.live idx e1 k1 kidsC) rest =>
    intro fuel s gOld gNew e0 k0 i n my0 ch Gn hfuel hslot hlen hin hch hne hGn hwf hnd1
      hnd2 hp0
    have hfc : KForest.fuelFor (.cons (.live idx e1 k1 kidsC) rest)
        = (2 + KForest.fuelFor kidsC) + KForest.fuelFor rest := rfl
    have hfcp := fuelFor_pos_forest kidsC
    have hfrp := fuelFor_pos_forest rest
    obtain ⟨f, rfl⟩ : ∃ m, fuel = m + 1 := ⟨fuel - 1, by omega⟩
    have hlencons : (KForest.idxList (.cons (.live idx e1 k1 kidsC) rest)).length
        = 1 + (KForest.idxList rest).length := by
      simp [KForest.idxList, KTree.idx]
      omega
    have hlt : i < n := by omega
    have hchi : ch.get? i = some idx := by
      have := hch 0
      simpa [KForest.idxList, KTree.idx] using this
    rw [KForest.WF] at hwf
    obtain ⟨hwfl, hwfrest⟩ := hwf
    rw [KTree.WF] at hwfl
    obtain ⟨hobs1, ⟨mc, hslotc⟩, hwfc⟩ := hwfl
    obtain ⟨Gold, hGold, hgete⟩ : ∃ Gold, s.groups gOld = some Gold ∧
        Gold.observers.get? idx = some (some (e1, k1)) := by
      unfold obsAt at hobs1
      cases hg : s.groups gOld with
      | none => rw [hg] at hobs1; exact absurd hobs1 (by simp)
      | some G => rw [hg] at hobs1; exact ⟨G, rfl, hobs1⟩
    have hidxlt : idx < Gold.observers.length := List.get?_eq_some.mp hgete |>.1
    -- distinctness decompositions
    have hli : KForest.liveIdx (.cons (.live idx e1 k1 kidsC) rest)
        = (idx :: KForest.liveIdx kidsC) ++ KForest.liveIdx rest := rfl
    have hsl : KForest.slotsOf (.cons (.live idx e1 k1 kidsC) rest)
        = ((e1, k1) :: KForest.slotsOf kidsC) ++ KForest.slotsOf rest := rfl
    rw [hli] at hnd1
    rw [hsl] at hnd2 hp0
    rw [List.nodup_append] at hnd1 hnd2
    obtain ⟨hnd1l, hnd1r, hdisj1⟩ := hnd1
    obtain ⟨hnd2l, hnd2r, hdisj2⟩ := hnd2
    rw [List.nodup_cons] at hnd1l hnd2l
    obtain ⟨hidxnotc, hnd1c⟩ := hnd1l
    obtain ⟨he1notc, hnd2c⟩ := hnd2l
    have hp0e1 : (e0, k0) ≠ (e1, k1) := by
      intro hc; exact hp0 (by simp [hc])
    have hp0c : (e0, k0) ∉ KForest.slotsOf kidsC := by
      intro hc; exact hp0 (by simp [hc])
    have hp0r : (e0, k0) ∉ KForest.slotsOf rest := by
      intro hc; exact hp0 (by simp [hc])
    -- step 1: tombstone the child's entry in the old group
    set GoldT : Group := { Gold with observers := Gold.observers.set idx none } with hGoldT
    set s1 : State := s.setGroup gOld GoldT with hs1
    have hgold1 : s1.groups gOld = some GoldT := groups_setGroup_self _ _ _
    have hGn1 : s1.groups gNew = some Gn := by
      rw [hs1, groups_setGroup_ne _ _ hne]; exact hGn
    have hslotc1 : s1.slot e1 k1 = some (.bound mc (KForest.idxList kidsC) (some gOld)) := by
      rw [hs1, slot_setGroup]; exact hslotc
    have hobsAt1 : ∀ p, p ≠ idx → obsAt s1 gOld p = obsAt s gOld p := by
      intro p hp
      simp only [obsAt, hgold1, hGold, hGoldT]
      exact List.get?_set_ne _ _ (fun hc => hp hc.symm)
    have hobsAt1idx : obsAt s1 gOld idx = some none := by
      simp only [obsAt, hgold1, hGoldT]
      exact List.get?_set_eq_of_lt _ hidxlt
    have hwfc1 : KForest.WF s1 gOld kidsC :=
      WF_mono_forest s s1 gOld kidsC
        (fun p => by
          by_cases hp : p = idx
          · subst hp; exact Or.inr hobsAt1idx
          · exact Or.inl (hobsAt1 p hp))
        (fun p hp => hobsAt1 p (fun hc => hidxnotc (hc ▸ hp)))
        (fun p _ => by rw [hs1, slot_setGroup]) hwfc
    -- inner recursion: rebind the child's own subtree
    obtain ⟨f1, rfl⟩ : ∃ m, f = m + 1 := ⟨f - 1, by omega⟩
    obtain ⟨s2, hrun2, R2⟩ := rebLoop_spec kidsC f1 s1 gOld gNew e1 k1 0
      (KForest.idxList kidsC).length mc (KForest.idxList kidsC) Gn (by omega) hslotc1 rfl
      (by omega) (by intro j; simp) hne hGn1 hwfc1 hnd1c hnd2c he1notc
    have hrebind : rebindObservers (f1 + 1) s1 gNew e1 k1 = .ok s2 := by
      simp only [rebindObservers, hslotc1]
      exact hrun2
    obtain ⟨m2, ch2, hsc2, hlc2, hprec2, hdeadc2⟩ := R2.parentSlot
    have hrebindraw : rebindObservers (f1 + 1) (s.setGroup gOld ⟨Gold.value, Gold.observers.set idx none⟩) gNew e1 k1 = .ok s2 := by
      have : (s.setGroup gOld ⟨Gold.value, Gold.observers.set idx none⟩) = s1 := by rw [hs1, hGoldT]
      rw [this]
      exact hrebind
    have h7raw : (s2.setSlot e1 k1 (Slot.bound m2 ch2 (some gNew))).groups gNew
        = some ⟨Gn.value, Gn.observers ++ KForest.flat kidsC⟩ := by
      rw [groups_setSlot]
      exact R2.newGroup
    have hs2e0 : s2.slot e0 k0 = some (.bound my0 ch (some gOld)) := by
      rw [R2.slotFrame e0 k0 hp0c hp0e1, hs1, slot_setGroup]
      exact hslot
    have h8raw : (s2.setSlot e1 k1 (Slot.bound m2 ch2 (some gNew))).slot e0 k0 = some (.bound my0 ch (some gOld)) := by
      rw [slot_setSlot_ne _ _ (Ne.symm hp0e1)]
      exact hs2e0
    have h9raw : ((s2.setSlot e1 k1 (Slot.bound m2 ch2 (some gNew))).setSlot e0 k0 (Slot.bound my0 (ch.set i (Gn.observers ++ KForest.flat kidsC).length) (some gOld))).slot e1 k1 = some (.bound m2 ch2 (some gNew)) := by
      rw [slot_setSlot_ne _ _ hp0e1]
      exact slot_setSlot_self _ _ _ _
    have h10raw : (((s2.setSlot e1 k1 (Slot.bound m2 ch2 (some gNew))).setSlot e0 k0 (Slot.bound my0 (ch.set i (Gn.observers ++ KForest.flat kidsC).length) (some gOld))).setSlot e1 k1 (Slot.bound (Gn.observers ++ KForest.flat kidsC).length ch2 (some gNew))).groups gNew
        = some ⟨Gn.value, Gn.observers ++ KForest.flat kidsC⟩ := by
      rw [groups_setSlot, groups_setSlot]
      exact h7raw
    have h11raw : ((((s2.setSlot e1 k1 (Slot.bound m2 ch2 (some gNew))).setSlot e0 k0 (Slot.bound my0 (ch.set i (Gn.observers ++ KForest.flat kidsC).length) (some gOld))).setSlot e1 k1 (Slot.bound (Gn.observers ++ KForest.flat kidsC).length ch2 (some gNew))).setGroup gNew (⟨Gn.value, (Gn.observers ++ KForest.flat kidsC) ++ [some (e1, k1)]⟩ : Group)).slot e0 k0
        = some (.bound my0 (ch.set i (Gn.observers ++ KForest.flat kidsC).length) (some gOld)) := by
      rw [slot_setGroup, slot_setSlot_ne _ _ (Ne.symm hp0e1)]
      exact slot_setSlot_self _ _ _ _
    have hslot7 : (((((s2.setSlot e1 k1 (Slot.bound m2 ch2 (some gNew))).setSlot e0 k0 (Slot.bound my0 (ch.set i (Gn.observers ++ KForest.flat kidsC).length) (some gOld))).setSlot e1 k1 (Slot.bound (Gn.observers ++ KForest.flat kidsC).length ch2 (some gNew))).setGroup gNew (⟨Gn.value, (Gn.observers ++ KForest.flat kidsC) ++ [some (e1, k1)]⟩ : Group)).setSlot e0 k0 (Slot.bound ((Gn.observers ++ KForest.flat kidsC).length + 1) (ch.set i (Gn.observers ++ KForest.flat kidsC).length) (some gOld))).slot e0 k0
        = some (.bound ((Gn.observers ++ KForest.flat kidsC).length + 1) (ch.set i (Gn.observers ++ KForest.flat kidsC).length) (some gOld)) :=
      slot_setSlot_self _ _ _ _
    have hlen7 : (ch.set i (Gn.observers ++ KForest.flat kidsC).length).length = n := by
      rw [List.length_set]
      exact hlen
    have hch7 : ∀ j, (ch.set i (Gn.observers ++ KForest.flat kidsC).length).get? (i + 1 + j) = (KForest.idxList rest).get? j := by
      intro j
      rw [List.get?_set_ne _ _ (by omega)]
      have := hch (j + 1)
      rw [show i + (j + 1) = i + 1 + j by omega] at this
      simpa [KForest.idxList, KTree.idx] using this
    have hGn7 : (((((s2.setSlot e1 k1 (Slot.bound m2 ch2 (some gNew))).setSlot e0 k0 (Slot.bound my0 (ch.set i (Gn.observers ++ KForest.flat kidsC).length) (some gOld))).setSlot e1 k1 (Slot.bound (Gn.observers ++ KForest.flat kidsC).length ch2 (some gNew))).setGroup gNew (⟨Gn.value, (Gn.observers ++ KForest.flat kidsC) ++ [some (e1, k1)]⟩ : Group)).setSlot e0 k0 (Slot.bound ((Gn.observers ++ KForest.flat kidsC).length + 1) (ch.set i (Gn.observers ++ KForest.flat kidsC).length) (some gOld))).groups gNew = some (⟨Gn.value, (Gn.observers ++ KForest.flat kidsC) ++ [some (e1, k1)]⟩ : Group) := by
      rw [groups_setSlot]
      exact groups_setGroup_self _ _ _
    have hgold72 : (((((s2.setSlot e1 k1 (Slot.bound m2 ch2 (some gNew))).setSlot e0 k0 (Slot.bound my0 (ch.set i (Gn.observers ++ KForest.flat kidsC).length) (some gOld))).setSlot e1 k1 (Slot.bound (Gn.observers ++ KForest.flat kidsC).length ch2 (some gNew))).setGroup gNew (⟨Gn.value, (Gn.observers ++ KForest.flat kidsC) ++ [some (e1, k1)]⟩ : Group)).setSlot e0 k0 (Slot.bound ((Gn.observers ++ KForest.flat kidsC).length + 1) (ch.set i (Gn.observers ++ KForest.flat kidsC).length) (some gOld))).groups gOld = s2.groups gOld := by
      rw [groups_setSlot, groups_setGroup_ne _ _ (Ne.symm hne), groups_setSlot,
        groups_setSlot, groups_setSlot]
    have hobs72 : ∀ p, obsAt (((((s2.setSlot e1 k1 (Slot.bound m2 ch2 (some gNew))).setSlot e0 k0 (Slot.bound my0 (ch.set i (Gn.observers ++ KForest.flat kidsC).length) (some gOld))).setSlot e1 k1 (Slot.bound (Gn.observers ++ KForest.flat kidsC).length ch2 (some gNew))).setGroup gNew (⟨Gn.value, (Gn.observers ++ KForest.flat kidsC) ++ [some (e1, k1)]⟩ : Group)).setSlot e0 k0 (Slot.bound ((Gn.observers ++ KForest.flat kidsC).length + 1) (ch.set i (Gn.observers ++ KForest.flat kidsC).length) (some gOld))) gOld p = obsAt s2 gOld p := by
      intro p
      simp only [obsAt, hgold72]
    have hobs2s : ∀ p, p ∉ idx :: KForest.liveIdx kidsC →
        obsAt s2 gOld p = obsAt s gOld p := by
      intro p hp
      rw [R2.oldOther p (fun hc => hp (by simp [hc])), hobsAt1 p (fun hc => hp (by simp [hc]))]
    have hobs2none : ∀ p, p ∈ idx :: KForest.liveIdx kidsC →
        obsAt s2 gOld p = some none := by
      intro p hp
      rcases List.mem_cons.mp hp with hc | hc
      · subst hc
        rw [R2.oldOther p hidxnotc]
        exact hobsAt1idx
      · exact R2.oldLive p hc
    have hslots7rest : ∀ p ∈ KForest.slotsOf rest, (((((s2.setSlot e1 k1 (Slot.bound m2 ch2 (some gNew))).setSlot e0 k0 (Slot.bound my0 (ch.set i (Gn.observers ++ KForest.flat kidsC).length) (some gOld))).setSlot e1 k1 (Slot.bound (Gn.observers ++ KForest.flat kidsC).length ch2 (some gNew))).setGroup gNew (⟨Gn.value, (Gn.observers ++ KForest.flat kidsC) ++ [some (e1, k1)]⟩ : Group)).setSlot e0 k0 (Slot.bound ((Gn.observers ++ KForest.flat kidsC).length + 1) (ch.set i (Gn.observers ++ KForest.flat kidsC).length) (some gOld))).slot p.1 p.2 = s.slot p.1 p.2 := by
      intro p hp
      obtain ⟨pe, pk⟩ := p
      have hpe0 : (pe, pk) ≠ (e0, k0) := fun hc => hp0r (hc ▸ hp)
      have hpe1 : (pe, pk) ≠ (e1, k1) := fun hc => hdisj2 (by simp [← hc]) hp
      have hpc : (pe, pk) ∉ KForest.slotsOf kidsC := fun hc => hdisj2 (by simp [hc]) hp
      rw [slot_setSlot_ne _ _ (Ne.symm hpe0), slot_setGroup,
        slot_setSlot_ne _ _ (Ne.symm hpe1), slot_setSlot_ne _ _ (Ne.symm hpe0),
        slot_setSlot_ne _ _ (Ne.symm hpe1), R2.slotFrame pe pk hpc hpe1, hs1, slot_setGroup]
    have hwfrest7 : KForest.WF (((((s2.setSlot e1 k1 (Slot.bound m2 ch2 (some gNew))).setSlot e0 k0 (Slot.bound my0 (ch.set i (Gn.observers ++ KForest.flat kidsC).length) (some gOld))).setSlot e1 k1 (Slot.bound (Gn.observers ++ KForest.flat kidsC).length ch2 (some gNew))).setGroup gNew (⟨Gn.value, (Gn.observers ++ KForest.flat kidsC) ++ [some (e1, k1)]⟩ : Group)).setSlot e0 k0 (Slot.bound ((Gn.observers ++ KForest.flat kidsC).length + 1) (ch.set i (Gn.observers ++ KForest.flat kidsC).length) (some gOld))) gOld rest :=
      WF_mono_forest s (((((s2.setSlot e1 k1 (Slot.bound m2 ch2 (some gNew))).setSlot e0 k0 (Slot.bound my0 (ch.set i (Gn.observers ++ KForest.flat kidsC).length) (some gOld))).setSlot e1 k1 (Slot.bound (Gn.observers ++ KForest.flat kidsC).length ch2 (some gNew))).setGroup gNew (⟨Gn.value, (Gn.observers ++ KForest.flat kidsC) ++ [some (e1, k1)]⟩ : Group)).setSlot e0 k0 (Slot.bound ((Gn.observers ++ KForest.flat kidsC).length + 1) (ch.set i (Gn.observers ++ KForest.flat kidsC).length) (some gOld))) gOld rest
        (fun p => by
          rw [hobs72 p]
          by_cases hp : p ∈ idx :: KForest.liveIdx kidsC
          · exact Or.inr (hobs2none p hp)
          · exact Or.inl (hobs2s p hp))
        (fun p hp => by
          rw [hobs72 p]
          exact hobs2s p (fun hc => hdisj1 hc hp))
        hslots7rest hwfrest
    obtain ⟨s8, hrun8, R8⟩ := rebLoop_spec rest (f1 + 1) (((((s2.setSlot e1 k1 (Slot.bound m2 ch2 (some gNew))).setSlot e0 k0 (Slot.bound my0 (ch.set i (Gn.observers ++ KForest.flat kidsC).length) (some gOld))).setSlot e1 k1 (Slot.bound (Gn.observers ++ KForest.flat kidsC).length ch2 (some gNew))).setGroup gNew (⟨Gn.value, (Gn.observers ++ KForest.flat kidsC) ++ [some (e1, k1)]⟩ : Group)).setSlot e0 k0 (Slot.bound ((Gn.observers ++ KForest.flat kidsC).length + 1) (ch.set i (Gn.observers ++ KForest.flat kidsC).length) (some gOld))) gOld gNew e0 k0 (i + 1) n
      ((Gn.observers ++ KForest.flat kidsC).length + 1) (ch.set i (Gn.observers ++ KForest.flat kidsC).length) (⟨Gn.value, (Gn.observers ++ KForest.flat kidsC) ++ [some (e1, k1)]⟩ : Group) (by omega) hslot7 hlen7 (by omega) hch7 hne hGn7
      hwfrest7 hnd1r hnd2r hp0r
    refine ⟨s8, ?_, ?_⟩
    · rw [← hrun8]
      simp only [rebLoop, hlt, if_pos, hslot, hchi, hGold, hgete, hrebindraw, hsc2, h7raw,
        h8raw, h9raw, h10raw, h11raw]
    · have hs7s2 : ∀ pe pk, (pe, pk) ≠ (e0, k0) → (pe, pk) ≠ (e1, k1) →
          (((((s2.setSlot e1 k1 (Slot.bound m2 ch2 (some gNew))).setSlot e0 k0 (Slot.bound my0 (ch.set i (Gn.observers ++ KForest.flat kidsC).length) (some gOld))).setSlot e1 k1 (Slot.bound (Gn.observers ++ KForest.flat kidsC).length ch2 (some gNew))).setGroup gNew (⟨Gn.value, (Gn.observers ++ KForest.flat kidsC) ++ [some (e1, k1)]⟩ : Group)).setSlot e0 k0 (Slot.bound ((Gn.observers ++ KForest.flat kidsC).length + 1) (ch.set i (Gn.observers ++ KForest.flat kidsC).length) (some gOld))).slot pe pk = s2.slot pe pk := by
        intro pe pk hpe0 hpe1
        rw [slot_setSlot_ne _ _ (Ne.symm hpe0), slot_setGroup,
          slot_setSlot_ne _ _ (Ne.symm hpe1), slot_setSlot_ne _ _ (Ne.symm hpe0),
          slot_setSlot_ne _ _ (Ne.symm hpe1)]
      have hs7e1 : (((((s2.setSlot e1 k1 (Slot.bound m2 ch2 (some gNew))).setSlot e0 k0 (Slot.bound my0 (ch.set i (Gn.observers ++ KForest.flat kidsC).length) (some gOld))).setSlot e1 k1 (Slot.bound (Gn.observers ++ KForest.flat kidsC).length ch2 (some gNew))).setGroup gNew (⟨Gn.value, (Gn.observers ++ KForest.flat kidsC) ++ [some (e1, k1)]⟩ : Group)).setSlot e0 k0 (Slot.bound ((Gn.observers ++ KForest.flat kidsC).length + 1) (ch.set i (Gn.observers ++ KForest.flat kidsC).length) (some gOld))).slot e1 k1 = some (.bound (Gn.observers ++ KForest.flat kidsC).length ch2 (some gNew)) := by
        rw [slot_setSlot_ne _ _ hp0e1, slot_setGroup]
        exact slot_setSlot_self _ _ _ _
      have hgroups7 : ∀ g', g' ≠ gNew → (((((s2.setSlot e1 k1 (Slot.bound m2 ch2 (some gNew))).setSlot e0 k0 (Slot.bound my0 (ch.set i (Gn.observers ++ KForest.flat kidsC).length) (some gOld))).setSlot e1 k1 (Slot.bound (Gn.observers ++ KForest.flat kidsC).length ch2 (some gNew))).setGroup gNew (⟨Gn.value, (Gn.observers ++ KForest.flat kidsC) ++ [some (e1, k1)]⟩ : Group)).setSlot e0 k0 (Slot.bound ((Gn.observers ++ KForest.flat kidsC).length + 1) (ch.set i (Gn.observers ++ KForest.flat kidsC).length) (some gOld))).groups g' = s2.groups g' := by
        intro g' h2
        rw [groups_setSlot, groups_setGroup_ne _ _ (Ne.symm h2), groups_setSlot,
          groups_setSlot, groups_setSlot]
      obtain ⟨m8, ch8, hps8, hlc8, hpre8, hdead8⟩ := R8.parentSlot
      refine ⟨⟨m8, ch8, hps8, ?_, ?_, ?_⟩, ?_, ?_, ?_, ?_, ?_, ?_, ?_, ?_, ?_, ?_, ?_⟩
      · rw [hlc8, List.length_set]
      · intro j hj
        rw [hpre8 j (by omega), List.get?_set_ne _ _ (by omega)]
      · intro j idx' hj
        match j, hj with
        | 0, hj => simp [KForest.get?] at hj
        | j' + 1, hj =>
          have hj' : KForest.get? rest j' = some (.dead idx') := by
            simpa [KForest.get?] using hj
          have := hdead8 j' idx' hj'
          rw [show i + (j' + 1) = i + 1 + j' by omega]
          exact this
      · rw [R8.newGroup]
        simp [KForest.flat, KTree.flat, List.append_assoc]
      · intro p hp
        rw [hli] at hp
        rcases List.mem_append.mp hp with hpl | hpr
        · rw [R8.oldOther p (fun hc => hdisj1 hpl hc), hobs72 p]
          exact hobs2none p hpl
        · exact R8.oldLive p hpr
      · intro p hp
        rw [hli, List.mem_append] at hp
        push_neg at hp
        obtain ⟨hpl, hpr⟩ := hp
        rw [R8.oldOther p hpr, hobs72 p]
        exact hobs2s p hpl
      · intro G0 h0
        have hG0 : G0 = Gold := by
          rw [h0] at hGold
          exact Option.some.inj hGold
        subst hG0
        obtain ⟨G2, hG2, hv2, hl2⟩ := R2.oldMeta GoldT hgold1
        obtain ⟨G8, hG8, hv8, hl8⟩ := R8.oldMeta G2 (by rw [hgold72]; exact hG2)
        refine ⟨G8, hG8, hv8.trans hv2, ?_⟩
        rw [hl8, hl2]
        simp [hGoldT]
      · intro e k hnotin hne0
        rw [hsl] at hnotin
        have hne1 : (e, k) ≠ (e1, k1) := fun hc => hnotin (by simp [hc])
        have hnc : (e, k) ∉ KForest.slotsOf kidsC := fun hc => hnotin (by simp [hc])
        have hnr : (e, k) ∉ KForest.slotsOf rest := fun hc => hnotin (by simp [hc])
        rw [R8.slotFrame e k hnr hne0, hs7s2 e k hne0 hne1, R2.slotFrame e k hnc hne1,
          hs1, slot_setGroup]
      · intro g' h1 h2
        rw [R8.groupFrame g' h1 h2, hgroups7 g' h2, R2.groupFrame g' h1 h2, hs1,
          groups_setGroup_ne _ _ (Ne.symm h1)]
      · intro p hp
        rw [hsl] at hp
        obtain ⟨pe, pk⟩ := p
        show ∃ m c, s8.slot pe pk = some (Slot.bound m c (some gNew))
        rcases List.mem_append.mp hp with hpl | hpr
        · rcases List.mem_cons.mp hpl with hc | hc
          · rw [Prod.mk.injEq] at hc
            obtain ⟨rfl, rfl⟩ := hc
            refine ⟨(Gn.observers ++ KForest.flat kidsC).length, ch2, ?_⟩
            rw [R8.slotFrame pe pk (fun hx => hdisj2 (by simp) hx) (Ne.symm hp0e1)]
            exact hs7e1
          · have hpe0 : (pe, pk) ≠ (e0, k0) := fun hx => hp0c (hx ▸ hc)
            have hpe1 : (pe, pk) ≠ (e1, k1) := fun hx => he1notc (hx ▸ hc)
            rw [R8.slotFrame pe pk (fun hx => hdisj2 (by simp [hc]) hx) hpe0,
              hs7s2 pe pk hpe0 hpe1]
            exact R2.moved (pe, pk) hc
        · exact R8.moved (pe, pk) hpr
      · rw [R8.logEq]
        show s2.log = s.log
        rw [R2.logEq]
        rfl
      · rw [R8.nextEq]
        show s2.nextGroup = s.nextGroup
        rw [R2.nextEq]
        rfl
      · rw [R8.fieldsEq]
        show s2.fields = s.fields
        rw [R2.fieldsEq]
        rfl
      · rw [R8.hookedEq]
        show s2.hooked = s.hooked
        rw [R2.hookedEq]
        rfl
termination_by KForest.size ks
decreasing_by
  all_goals simp [KForest.size, KTree.size]
  all_goals omega

/-! ### Further frame lemmas and the split-correctness corollaries -/

theorem slots_setGroup (s : State) (g : GroupId) (G : Group) :
    (s.setGroup g G).slots = s.slots := rfl

theorem fields_setGroup (s : State) (g : GroupId) (G : Group) :
    (s.setGroup g G).fields = s.fields := rfl

theorem groupHeap_setGroup (s : State) (g : GroupId) (G : Group) :
    (s.setGroup g G).groupHeap = (g, G) :: s.groupHeap := rfl

theorem nextGroup_setGroup (s : State) (g : GroupId) (G : Group) :
    (s.setGroup g G).nextGroup = s.nextGroup := rfl

theorem hooked_setGroup (s : State) (g : GroupId) (G : Group) :
    (s.setGroup g G).hooked = s.hooked := rfl

/-- The parent records the root index of the tree at each top-level
position of the forest. -/
theorem KForest.get?_idxList (ks : KForest) (j : Nat) (t : KTree)
    (h : KForest.get? ks j = some t) :
    (KForest.idxList ks).get? j = some (KTree.idx t) := by
  match ks, j with
  | .nil, j => simp [KForest.get?] at h
  | .cons kid rest, 0 =>
    simp only [KForest.get?, Option.some.injEq] at h
    subst h
    rfl
  | .cons kid rest, j + 1 =>
    simp only [KForest.get?] at h
    simpa [KForest.idxList] using KForest.get?_idxList rest j t h
termination_by j
decreasing_by omega

/-- C9 (amended): during rebind-subtree, every recorded index that refers
to an already-tombstoned entry of the old group contributes a tombstone
placeholder to the new group's observer list (`flat` holds `none` at each
dead node, and the count of `none`s is exactly the number of dead nodes),
while the corresponding entry of the parent's `__observer_indexes` is left
unchanged, retaining the old, stale index, rather than being dropped. -/
theorem c9_rebind_keeps_dead_indices (fuel : Nat) (s : State) (gOld gNew : GroupId)
    (e0 : EntityId) (k0 : Key) (my0 : Nat) (Gn : Group) (ks : KForest)
    (hfuel : KForest.fuelFor ks ≤ fuel)
    (hslot : s.slot e0 k0 = some (.bound my0 (KForest.idxList ks) (some gOld)))
    (hne : gOld ≠ gNew)
    (hGn : s.groups gNew = some Gn)
    (hwf : KForest.WF s gOld ks)
    (hnd1 : (KForest.liveIdx ks).Nodup)
    (hnd2 : (KForest.slotsOf ks).Nodup)
    (hp0 : (e0, k0) ∉ KForest.slotsOf ks) :
    ∃ s', rebindObservers (fuel + 1) s gNew e0 k0 = .ok s' ∧
      s'.groups gNew = some ⟨Gn.value, Gn.observers ++ KForest.flat ks⟩ ∧
      (KForest.flat ks).count none = KForest.deadTotal ks ∧
      ∃ my' ch', s'.slot e0 k0 = some (.bound my' ch' (some gOld)) ∧
        ch'.length = (KForest.idxList ks).length ∧
        ∀ j idx, KForest.get? ks j = some (.dead idx) →
          ch'.get? j = some idx ∧ (KForest.idxList ks).get? j = some idx := by
  obtain ⟨s', hrun, R⟩ := rebLoop_spec ks fuel s gOld gNew e0 k0 0
    (KForest.idxList ks).length my0 (KForest.idxList ks) Gn hfuel hslot rfl (by omega)
    (by intro j; simp) hne hGn hwf hnd1 hnd2 hp0
  obtain ⟨my', ch', hps, hlen', hpre, hdead⟩ := R.parentSlot
  refine ⟨s', ?_, R.newGroup, count_none_flat_forest ks, my', ch', hps, hlen', ?_⟩
  · simp only [rebindObservers, hslot]
    exact hrun
  · intro j idx hj
    refine ⟨?_, KForest.get?_idxList ks j _ hj⟩
    have := hdead j idx hj
    simpa using this

/-- C3: unbinding a bound, non-root slot whose recorded `__observer_indexes`
forest is `ks` detaches the slot itself plus its `(KForest.slotsOf ks).length`
live descendants — exactly M+1 live entries — into the freshly created group
`s.nextGroup`, whose value is the old group's value at the moment of unbind;
the unbinding slot ends with `__my_index` 0 in the new group, every detached
descendant slot points at the new group, the old group keeps every
non-detached entry unchanged at its original index (same length, same value),
and nothing else changes. -/
theorem c3_unbind_split (fuel : Nat) (s : State) (e0 : EntityId) (k0 : Key)
    (gOld : GroupId) (my0 : Nat) (G : Group) (ks : KForest)
    (hslot : s.slot e0 k0 = some (.bound my0 (KForest.idxList ks) (some gOld)))
    (hmy : my0 ≠ 0)
    (hlen0 : (KForest.idxList ks).length ≠ 0)
    (hG : s.groups gOld = some G)
    (hmylt : my0 < G.observers.length)
    (hfresh : gOld ≠ s.nextGroup)
    (hfuel : KForest.fuelFor ks + 1 ≤ fuel)
    (hwf : KForest.WF s gOld ks)
    (hnd1 : (KForest.liveIdx ks).Nodup)
    (hnd2 : (KForest.slotsOf ks).Nodup)
    (hmynot : my0 ∉ KForest.liveIdx ks)
    (hp0 : (e0, k0) ∉ KForest.slotsOf ks) :
    ∃ s', unbind fuel s e0 k0 = .ok s' ∧
      (∃ ch', s'.slot e0 k0 = some (.bound 0 ch' (some s.nextGroup))) ∧
      s'.groups s.nextGroup = some ⟨G.value, some (e0, k0) :: KForest.flat ks⟩ ∧
      ((some (e0, k0) :: KForest.flat ks).filterMap id).length
        = (KForest.slotsOf ks).length + 1 ∧
      (∀ p ∈ KForest.slotsOf ks, ∃ m c,
        s'.slot p.1 p.2 = some (.bound m c (some s.nextGroup))) ∧
      (∀ p ∈ my0 :: KForest.liveIdx ks, obsAt s' gOld p = some none) ∧
      (∀ p, p ∉ my0 :: KForest.liveIdx ks → obsAt s' gOld p = obsAt s gOld p) ∧
      (∃ G', s'.groups gOld = some G' ∧ G'.value = G.value ∧
        G'.observers.length = G.observers.length) ∧
      (∀ e k, (e, k) ∉ KForest.slotsOf ks → (e, k) ≠ (e0, k0) →
        s'.slot e k = s.slot e k) ∧
      (∀ g', g' ≠ gOld → g' ≠ s.nextGroup → s'.groups g' = s.groups g') := by
  obtain ⟨f, rfl⟩ : ∃ m, fuel = m + 1 := ⟨fuel - 1, by omega⟩
  have hslot3 : ((⟨s.slots, s.fields, (gOld, (⟨G.value, G.observers.set my0 none⟩ : Group)) :: s.groupHeap, s.nextGroup + 1, s.hooked, s.log⟩ : State).setGroup s.nextGroup (⟨G.value, [some (e0, k0)]⟩ : Group)).slot e0 k0
      = some (.bound my0 (KForest.idxList ks) (some gOld)) := hslot
  have hGn3 : ((⟨s.slots, s.fields, (gOld, (⟨G.value, G.observers.set my0 none⟩ : Group)) :: s.groupHeap, s.nextGroup + 1, s.hooked, s.log⟩ : State).setGroup s.nextGroup (⟨G.value, [some (e0, k0)]⟩ : Group)).groups s.nextGroup = some (⟨G.value, [some (e0, k0)]⟩ : Group) :=
    groups_setGroup_self _ _ _
  have hgold3 : ((⟨s.slots, s.fields, (gOld, (⟨G.value, G.observers.set my0 none⟩ : Group)) :: s.groupHeap, s.nextGroup + 1, s.hooked, s.log⟩ : State).setGroup s.nextGroup (⟨G.value, [some (e0, k0)]⟩ : Group)).groups gOld = some (⟨G.value, G.observers.set my0 none⟩ : Group) := by
    rw [groups_setGroup_ne _ _ (Ne.symm hfresh)]
    show (s.setGroup gOld (⟨G.value, G.observers.set my0 none⟩ : Group)).groups gOld = some (⟨G.value, G.observers.set my0 none⟩ : Group)
    exact groups_setGroup_self _ _ _
  have hobs3ne : ∀ p, p ≠ my0 → obsAt ((⟨s.slots, s.fields, (gOld, (⟨G.value, G.observers.set my0 none⟩ : Group)) :: s.groupHeap, s.nextGroup + 1, s.hooked, s.log⟩ : State).setGroup s.nextGroup (⟨G.value, [some (e0, k0)]⟩ : Group)) gOld p = obsAt s gOld p := by
    intro p hp
    simp only [obsAt, hgold3, hG]
    exact List.get?_set_ne _ _ (fun hc => hp hc.symm)
  have hobs3my : obsAt ((⟨s.slots, s.fields, (gOld, (⟨G.value, G.observers.set my0 none⟩ : Group)) :: s.groupHeap, s.nextGroup + 1, s.hooked, s.log⟩ : State).setGroup s.nextGroup (⟨G.value, [some (e0, k0)]⟩ : Group)) gOld my0 = some none := by
    simp only [obsAt, hgold3]
    exact List.get?_set_eq_of_lt _ hmylt
  have hwf3 : KForest.WF ((⟨s.slots, s.fields, (gOld, (⟨G.value, G.observers.set my0 none⟩ : Group)) :: s.groupHeap, s.nextGroup + 1, s.hooked, s.log⟩ : State).setGroup s.nextGroup (⟨G.value, [some (e0, k0)]⟩ : Group)) gOld ks :=
    WF_mono_forest s ((⟨s.slots, s.fields, (gOld, (⟨G.value, G.observers.set my0 none⟩ : Group)) :: s.groupHeap, s.nextGroup + 1, s.hooked, s.log⟩ : State).setGroup s.nextGroup (⟨G.value, [some (e0, k0)]⟩ : Group)) gOld ks
      (fun p => by
        by_cases hp : p = my0
        · subst hp
          exact Or.inr hobs3my
        · exact Or.inl (hobs3ne p hp))
      (fun p hp => hobs3ne p (fun hc => hmynot (hc ▸ hp)))
      (fun p _ => rfl)
      hwf
  obtain ⟨s', hrun, R⟩ := rebLoop_spec ks f ((⟨s.slots, s.fields, (gOld, (⟨G.value, G.observers.set my0 none⟩ : Group)) :: s.groupHeap, s.nextGroup + 1, s.hooked, s.log⟩ : State).setGroup s.nextGroup (⟨G.value, [some (e0, k0)]⟩ : Group)) gOld s.nextGroup e0 k0 0
    (KForest.idxList ks).length my0 (KForest.idxList ks)
    (⟨G.value, [some (e0, k0)]⟩ : Group) (by omega) hslot3 rfl (by omega)
    (by intro j; simp) hfresh hGn3 hwf3 hnd1 hnd2 hp0
  have hrebind : rebindObservers (f + 1) ((⟨s.slots, s.fields, (gOld, (⟨G.value, G.observers.set my0 none⟩ : Group)) :: s.groupHeap, s.nextGroup + 1, s.hooked, s.log⟩ : State).setGroup s.nextGroup (⟨G.value, [some (e0, k0)]⟩ : Group)) s.nextGroup e0 k0 = .ok s' := by
    simp only [rebindObservers, hslot3]
    exact hrun
  obtain ⟨my', ch', hps, hlc', hpre', hdead'⟩ := R.parentSlot
  have hobsF : ∀ p, obsAt (s'.setSlot e0 k0 (Slot.bound 0 ch' (some s.nextGroup))) gOld p
      = obsAt s' gOld p := fun p => by
    simp only [obsAt, groups_setSlot]
  refine ⟨s'.setSlot e0 k0 (.bound 0 ch' (some s.nextGroup)), ?_,
    ⟨ch', slot_setSlot_self _ _ _ _⟩, ?_, ?_, ?_, ?_, ?_, ?_, ?_, ?_⟩
  · simp only [unbind, hslot, hmy, hG, hlen0, nextGroup_setGroup, slots_setGroup,
      fields_setGroup, groupHeap_setGroup, hooked_setGroup, log_setGroup, hrebind, hps]
    simp
  · rw [groups_setSlot]
    exact R.newGroup
  · simp [List.filterMap_cons, length_filterMap_flat_forest ks]
  · intro p hp
    obtain ⟨pe, pk⟩ := p
    show ∃ m c, (s'.setSlot e0 k0 (Slot.bound 0 ch' (some s.nextGroup))).slot pe pk
      = some (Slot.bound m c (some s.nextGroup))
    rw [slot_setSlot_ne _ _ (fun hc => hp0 (by rw [hc]; exact hp))]
    exact R.moved (pe, pk) hp
  · intro p hp
    rw [hobsF p]
    rcases List.mem_cons.mp hp with hc | hc
    · subst hc
      rw [R.oldOther p hmynot]
      exact hobs3my
    · exact R.oldLive p hc
  · intro p hp
    rw [hobsF p, R.oldOther p (fun hc => hp (List.mem_cons_of_mem _ hc))]
    exact hobs3ne p (fun hc => hp (by rw [hc]; exact List.mem_cons_self _ _))
  · obtain ⟨G2, hG2, hv, hl⟩ := R.oldMeta _ hgold3
    refine ⟨G2, by rw [groups_setSlot]; exact hG2, hv, ?_⟩
    rw [hl]
    simp
  · intro e k h1 h2
    rw [slot_setSlot_ne _ _ (Ne.symm h2)]
    exact R.slotFrame e k h1 h2
  · intro g' h1 h2
    rw [groups_setSlot, R.groupFrame g' h1 h2, groups_setGroup_ne _ _ (Ne.symm h2)]
    show (s.setGroup gOld (⟨G.value, G.observers.set my0 none⟩ : Group)).groups g' = s.groups g'
    exact groups_setGroup_ne _ _ (Ne.symm h1)

/-- `c3_unbind_split` at the concrete state `c3wState`. -/
theorem c3_unbind_split_witness :
    ∃ s', unbind 10 c3wState 0 0 = .ok s' ∧
      (∃ ch', s'.slot 0 0 = some (.bound 0 ch' (some c3wState.nextGroup))) ∧
      s'.groups c3wState.nextGroup
        = some ⟨c3wG.value, some (0, 0) :: KForest.flat c3wKs⟩ ∧
      ((some (0, 0) :: KForest.flat c3wKs).filterMap id).length
        = (KForest.slotsOf c3wKs).length + 1 ∧
      (∀ p ∈ KForest.slotsOf c3wKs, ∃ m c,
        s'.slot p.1 p.2 = some (.bound m c (some c3wState.nextGroup))) ∧
      (∀ p ∈ 1 :: KForest.liveIdx c3wKs, obsAt s' 0 p = some none) ∧
      (∀ p, p ∉ 1 :: KForest.liveIdx c3wKs → obsAt s' 0 p = obsAt c3wState 0 p) ∧
      (∃ G', s'.groups 0 = some G' ∧ G'.value = c3wG.value ∧
        G'.observers.length = c3wG.observers.length) ∧
      (∀ e k, (e, k) ∉ KForest.slotsOf c3wKs → (e, k) ≠ (0, 0) →
        s'.slot e k = c3wState.slot e k) ∧
      (∀ g', g' ≠ 0 → g' ≠ c3wState.nextGroup → s'.groups g' = c3wState.groups g') :=
  c3_unbind_split 10 c3wState 0 0 0 1 c3wG c3wKs (by decide) (by decide) (by decide)
    (by decide) (by decide) (by decide) (by decide)
    ⟨⟨rfl, ⟨2, rfl⟩, True.intro⟩, rfl, True.intro⟩
    (by decide) (by decide) (by decide) (by decide)

/-- `c9_rebind_keeps_dead_indices` at the concrete state `c9wState`. -/
theorem c9_rebind_keeps_dead_indices_witness :
    ∃ s', rebindObservers (5 + 1) c9wState 1 0 0 = .ok s' ∧
      s'.groups 1 = some ⟨c9wGn.value, c9wGn.observers ++ KForest.flat c9wKs⟩ ∧
      (KForest.flat c9wKs).count none = KForest.deadTotal c9wKs ∧
      ∃ my' ch', s'.slot 0 0 = some (.bound my' ch' (some 0)) ∧
        ch'.length = (KForest.idxList c9wKs).length ∧
        ∀ j idx, KForest.get? c9wKs j = some (.dead idx) →
          ch'.get? j = some idx ∧ (KForest.idxList c9wKs).get? j = some idx :=
  c9_rebind_keeps_dead_indices 5 c9wState 0 1 0 0 1 c9wGn c9wKs (by decide) (by decide)
    (by decide) (by decide) ⟨rfl, True.intro⟩ (by decide) (by decide) (by decide)

end MVC
